import Mathlib

/-!
# Ratcalc core: shallow embedding and verification

This file embeds the core of the ratcalc calculator (Go) in Lean 4 and
proves/refutes the frozen specification claims about it.

Conventions of the embedding:
* `math/big.Rat` becomes `ℚ`.  A Go `*big.Rat` field that may be `nil`
  becomes `Option ℚ`; sites where the Go code dereferences such a pointer
  unconditionally are translated with `Option.getD 0` (the Go code only
  ever does this on values produced by the evaluator, whose rationals are
  non-nil).
* Go interface-typed fields (`Unit.ToBase`, `Unit.PreOffset`) become small
  inductive types with one constructor per dynamic type the code stores.
* Fallible Go functions returning `(T, error)` become `Except EvalError T`.
* Impure dependencies (the host clock inside `Eval`, the float64-based
  scientific formatter `formatSci`, `time.Time` calendar formatting) are
  taken as explicit function parameters; everything else is executable.
* Byte indices in the lexer become character indices (the inputs the
  claims quantify over are ASCII, where the two coincide).
-/

namespace Ratcalc

/-- Unit categories (token.go `UnitCategory`). -/
inductive UnitCategory where
  | number
  | length
  | weight
  | time
  | timestamp
  | volume
  | temperature
  | pressure
  | force
  | energy
  | power
  | voltage
  | current
  | resistance
  | data
  | currency
deriving DecidableEq, Repr

/-- The dynamic type of `Unit.ToBase` (`any` in Go): a `*big.Rat` factor, an
`int` display base, the string `"hms"`, or `nil`. -/
inductive ToBaseV where
  | noneV
  | rat (q : ℚ)
  | ibase (n : Int)
  | hms
deriving DecidableEq, Repr

/-- The dynamic type of `Unit.PreOffset` (`any` in Go): `nil`, a `*big.Rat`
temperature offset, or a `time.Location` (modelled as a fixed zone:
name and offset seconds, as built by `time.FixedZone`). -/
inductive PreOffsetV where
  | noneV
  | rat (q : ℚ)
  | loc (name : String) (offset : Int)
deriving DecidableEq, Repr

/-- A unit record (token.go `Unit`). -/
structure Unit where
  short : String
  full : String := ""
  fullPl : String := ""
  category : UnitCategory
  toBase : ToBaseV := .noneV
  preOffset : PreOffsetV := .noneV
deriving DecidableEq, Repr

/-- token.go `(u *Unit) HasOffset`: offset-based conversion (temperature). -/
def Unit.hasOffset (u : Unit) : Bool :=
  u.category = .temperature

/-- token.go `toBaseRat`: extract the rational conversion factor,
defaulting to 1 when `ToBase` is nil or not a `*big.Rat`. -/
def toBaseRat (u : Unit) : ℚ :=
  match u.toBase with
  | .rat q => q
  | _ => 1

/-- token.go `preOffsetRat`: extract the rational offset, defaulting to 0
when `PreOffset` is nil or not a `*big.Rat`. -/
def preOffsetRat (u : Unit) : ℚ :=
  match u.preOffset with
  | .rat q => q
  | _ => 0

/-- token.go `ratFromFrac` (`big.Rat.SetFrac64`: the normalized fraction
`num/den`; every catalogue denominator is positive). -/
def ratFromFrac (num den : Int) : ℚ := mkRat num den.natAbs

set_option maxHeartbeats 2000000 in
/-- token.go `allUnits`: the fixed unit catalogue. -/
def allUnits : List Unit := [
  -- Length (base: meters)
  { short := "pm", full := "picometer", fullPl := "picometers", category := .length, toBase := .rat (ratFromFrac 1 1000000000000) },
  { short := "nm", full := "nanometer", fullPl := "nanometers", category := .length, toBase := .rat (ratFromFrac 1 1000000000) },
  { short := "um", full := "micrometer", fullPl := "micrometers", category := .length, toBase := .rat (ratFromFrac 1 1000000) },
  { short := "mm", full := "millimeter", fullPl := "millimeters", category := .length, toBase := .rat (ratFromFrac 1 1000) },
  { short := "cm", full := "centimeter", fullPl := "centimeters", category := .length, toBase := .rat (ratFromFrac 1 100) },
  { short := "m", full := "meter", fullPl := "meters", category := .length, toBase := .rat (ratFromFrac 1 1) },
  { short := "km", full := "kilometer", fullPl := "kilometers", category := .length, toBase := .rat (ratFromFrac 1000 1) },
  { short := "in", full := "inch", fullPl := "inches", category := .length, toBase := .rat (ratFromFrac 127 5000) },
  { short := "ft", full := "foot", fullPl := "feet", category := .length, toBase := .rat (ratFromFrac 381 1250) },
  { short := "yd", full := "yard", fullPl := "yards", category := .length, toBase := .rat (ratFromFrac 1143 1250) },
  { short := "mi", full := "mile", fullPl := "miles", category := .length, toBase := .rat (ratFromFrac 201168 125) },
  { short := "au", full := "au", fullPl := "au", category := .length, toBase := .rat (ratFromFrac 149597870700 1) },
  -- Weight (base: grams)
  { short := "mg", full := "milligram", fullPl := "milligrams", category := .weight, toBase := .rat (ratFromFrac 1 1000) },
  { short := "g", full := "gram", fullPl := "grams", category := .weight, toBase := .rat (ratFromFrac 1 1) },
  { short := "kg", full := "kilogram", fullPl := "kilograms", category := .weight, toBase := .rat (ratFromFrac 1000 1) },
  { short := "oz", full := "ounce", fullPl := "ounces", category := .weight, toBase := .rat (ratFromFrac 45359237 1600000) },
  { short := "lb", full := "pound", fullPl := "pounds", category := .weight, toBase := .rat (ratFromFrac 45359237 100000) },
  -- Time (base: seconds)
  { short := "ms", full := "millisecond", fullPl := "milliseconds", category := .time, toBase := .rat (ratFromFrac 1 1000) },
  { short := "s", full := "second", fullPl := "seconds", category := .time, toBase := .rat (ratFromFrac 1 1) },
  { short := "min", full := "minute", fullPl := "minutes", category := .time, toBase := .rat (ratFromFrac 60 1) },
  { short := "hr", full := "hour", fullPl := "hours", category := .time, toBase := .rat (ratFromFrac 3600 1) },
  { short := "d", full := "day", fullPl := "days", category := .time, toBase := .rat (ratFromFrac 86400 1) },
  { short := "wk", full := "week", fullPl := "weeks", category := .time, toBase := .rat (ratFromFrac 604800 1) },
  { short := "yr", full := "year", fullPl := "years", category := .time, toBase := .rat (ratFromFrac 31557600 1) },
  -- Volume (base: liters)
  { short := "mL", full := "milliliter", fullPl := "milliliters", category := .volume, toBase := .rat (ratFromFrac 1 1000) },
  { short := "L", full := "liter", fullPl := "liters", category := .volume, toBase := .rat (ratFromFrac 1 1) },
  { short := "floz", full := "floz", fullPl := "floz", category := .volume, toBase := .rat (ratFromFrac 473176473 16000000000) },
  { short := "cup", full := "cup", fullPl := "cups", category := .volume, toBase := .rat (ratFromFrac 473176473 2000000000) },
  { short := "pt", full := "pint", fullPl := "pints", category := .volume, toBase := .rat (ratFromFrac 473176473 1000000000) },
  { short := "qt", full := "quart", fullPl := "quarts", category := .volume, toBase := .rat (ratFromFrac 473176473 500000000) },
  { short := "gal", full := "gallon", fullPl := "gallons", category := .volume, toBase := .rat (ratFromFrac 473176473 125000000) },
  -- Temperature (base: kelvin)
  { short := "K", full := "kelvin", fullPl := "kelvin", category := .temperature, toBase := .rat (ratFromFrac 1 1) },
  { short := "C", full := "celsius", fullPl := "celsius", category := .temperature, toBase := .rat (ratFromFrac 1 1), preOffset := .rat (ratFromFrac 27315 100) },
  { short := "F", full := "fahrenheit", fullPl := "fahrenheit", category := .temperature, toBase := .rat (ratFromFrac 5 9), preOffset := .rat (ratFromFrac 45967 100) },
  -- Pressure (base: Pascal)
  { short := "Pa", full := "pascal", fullPl := "pascals", category := .pressure, toBase := .rat (ratFromFrac 1 1) },
  { short := "kPa", full := "kilopascal", fullPl := "kilopascals", category := .pressure, toBase := .rat (ratFromFrac 1000 1) },
  { short := "bar", full := "bar", fullPl := "bars", category := .pressure, toBase := .rat (ratFromFrac 100000 1) },
  { short := "atm", full := "atmosphere", fullPl := "atmospheres", category := .pressure, toBase := .rat (ratFromFrac 101325 1) },
  { short := "psi", full := "psi", fullPl := "psi", category := .pressure, toBase := .rat (ratFromFrac 8896443230521 1290320000) },
  -- Force (base: Newton)
  { short := "N", full := "newton", fullPl := "newtons", category := .force, toBase := .rat (ratFromFrac 1 1) },
  { short := "kN", full := "kilonewton", fullPl := "kilonewtons", category := .force, toBase := .rat (ratFromFrac 1000 1) },
  { short := "lbf", full := "lbf", fullPl := "lbf", category := .force, toBase := .rat (ratFromFrac 8896443230521 2000000000000) },
  -- Energy (base: Joule)
  { short := "J", full := "joule", fullPl := "joules", category := .energy, toBase := .rat (ratFromFrac 1 1) },
  { short := "kJ", full := "kilojoule", fullPl := "kilojoules", category := .energy, toBase := .rat (ratFromFrac 1000 1) },
  { short := "Wh", full := "watt-hour", fullPl := "watt-hours", category := .energy, toBase := .rat (ratFromFrac 3600 1) },
  { short := "kWh", full := "kilowatt-hour", fullPl := "kilowatt-hours", category := .energy, toBase := .rat (ratFromFrac 3600000 1) },
  { short := "cal", full := "calorie", fullPl := "calories", category := .energy, toBase := .rat (ratFromFrac 4184 1000) },
  { short := "kcal", full := "kilocalorie", fullPl := "kilocalories", category := .energy, toBase := .rat (ratFromFrac 4184 1) },
  { short := "BTU", full := "BTU", fullPl := "BTU", category := .energy, toBase := .rat (ratFromFrac 52752792631 50000000) },
  -- Power (base: Watt)
  { short := "W", full := "watt", fullPl := "watts", category := .power, toBase := .rat (ratFromFrac 1 1) },
  { short := "kW", full := "kilowatt", fullPl := "kilowatts", category := .power, toBase := .rat (ratFromFrac 1000 1) },
  { short := "MW", full := "megawatt", fullPl := "megawatts", category := .power, toBase := .rat (ratFromFrac 1000000 1) },
  { short := "hp", full := "horsepower", fullPl := "horsepower", category := .power, toBase := .rat (ratFromFrac 37284993579113511 50000000000000) },
  -- Voltage (base: Volt)
  { short := "mV", full := "millivolt", fullPl := "millivolts", category := .voltage, toBase := .rat (ratFromFrac 1 1000) },
  { short := "V", full := "volt", fullPl := "volts", category := .voltage, toBase := .rat (ratFromFrac 1 1) },
  { short := "kV", full := "kilovolt", fullPl := "kilovolts", category := .voltage, toBase := .rat (ratFromFrac 1000 1) },
  -- Current (base: Ampere)
  { short := "mA", full := "milliampere", fullPl := "milliamperes", category := .current, toBase := .rat (ratFromFrac 1 1000) },
  { short := "A", full := "ampere", fullPl := "amperes", category := .current, toBase := .rat (ratFromFrac 1 1) },
  -- Resistance (base: Ohm)
  { short := "ohm", full := "ohm", fullPl := "ohms", category := .resistance, toBase := .rat (ratFromFrac 1 1) },
  { short := "kohm", full := "kilohm", fullPl := "kilohms", category := .resistance, toBase := .rat (ratFromFrac 1000 1) },
  -- Data (base: bytes)
  { short := "bit", full := "bit", fullPl := "bits", category := .data, toBase := .rat (ratFromFrac 1 8) },
  { short := "kbit", full := "kilobit", fullPl := "kilobits", category := .data, toBase := .rat (ratFromFrac 125 1) },
  { short := "Mbit", full := "megabit", fullPl := "megabits", category := .data, toBase := .rat (ratFromFrac 125000 1) },
  { short := "Gbit", full := "gigabit", fullPl := "gigabits", category := .data, toBase := .rat (ratFromFrac 125000000 1) },
  { short := "Tbit", full := "terabit", fullPl := "terabits", category := .data, toBase := .rat (ratFromFrac 125000000000 1) },
  { short := "Kibit", full := "kibibit", fullPl := "kibibits", category := .data, toBase := .rat (ratFromFrac 128 1) },
  { short := "Mibit", full := "mebibit", fullPl := "mebibits", category := .data, toBase := .rat (ratFromFrac 131072 1) },
  { short := "Gibit", full := "gibibit", fullPl := "gibibits", category := .data, toBase := .rat (ratFromFrac 134217728 1) },
  { short := "Tibit", full := "tebibit", fullPl := "tebibits", category := .data, toBase := .rat (ratFromFrac 137438953472 1) },
  { short := "B", full := "byte", fullPl := "bytes", category := .data, toBase := .rat (ratFromFrac 1 1) },
  { short := "KB", full := "kilobyte", fullPl := "kilobytes", category := .data, toBase := .rat (ratFromFrac 1000 1) },
  { short := "MB", full := "megabyte", fullPl := "megabytes", category := .data, toBase := .rat (ratFromFrac 1000000 1) },
  { short := "GB", full := "gigabyte", fullPl := "gigabytes", category := .data, toBase := .rat (ratFromFrac 1000000000 1) },
  { short := "TB", full := "terabyte", fullPl := "terabytes", category := .data, toBase := .rat (ratFromFrac 1000000000000 1) },
  { short := "KiB", full := "kibibyte", fullPl := "kibibytes", category := .data, toBase := .rat (ratFromFrac 1024 1) },
  { short := "MiB", full := "mebibyte", fullPl := "mebibytes", category := .data, toBase := .rat (ratFromFrac 1048576 1) },
  { short := "GiB", full := "gibibyte", fullPl := "gibibytes", category := .data, toBase := .rat (ratFromFrac 1073741824 1) },
  { short := "TiB", full := "tebibyte", fullPl := "tebibytes", category := .data, toBase := .rat (ratFromFrac 1099511627776 1) },
  -- Currency (each currency is its own base; no exchange rates)
  { short := "USD", full := "dollar", fullPl := "dollars", category := .currency, toBase := .rat (ratFromFrac 1 1) },
  { short := "EUR", full := "euro", fullPl := "euros", category := .currency, toBase := .rat (ratFromFrac 1 1) },
  { short := "GBP", category := .currency, toBase := .rat (ratFromFrac 1 1) },
  { short := "JPY", full := "yen", fullPl := "yen", category := .currency, toBase := .rat (ratFromFrac 1 1) },
  { short := "CAD", category := .currency, toBase := .rat (ratFromFrac 1 1) },
  { short := "AUD", category := .currency, toBase := .rat (ratFromFrac 1 1) },
  { short := "CHF", category := .currency, toBase := .rat (ratFromFrac 1 1) }
]

/-- token.go `currencySymbols` (a fixed map, modelled as a lookup list). -/
def currencySymbols : List (String × String) :=
  [("USD", "$"), ("EUR", "€"), ("GBP", "£"), ("JPY", "¥")]

/-- token.go `LookupUnit`: lookup by short name, full singular, or full
plural (the table `unitLookup` has no duplicate keys), with the currency
symbol aliases registered by `init`. -/
def LookupUnit (name : String) : Option Unit :=
  let key :=
    if name = "$" then "USD"
    else if name = "€" then "EUR"
    else if name = "£" then "GBP"
    else if name = "¥" then "JPY"
    else name
  allUnits.find? fun u =>
    u.short == key || (u.full != "" && u.full == key) || (u.fullPl != "" && u.fullPl == key)

/-- token.go `numUnit`: sentinel for dimensionless values. -/
def numUnit : Unit :=
  { short := "", category := .number, toBase := .rat (ratFromFrac 1 1) }

/-- token.go `tsUnit`: sentinel for absolute timestamps without timezone. -/
def tsUnit : Unit :=
  { short := "timestamp", category := .timestamp, toBase := .rat (ratFromFrac 1 1) }

/-- token.go display-base sentinels. -/
def decUnit : Unit := { short := "", category := .number, toBase := .ibase 10 }

def hexUnit : Unit := { short := "", category := .number, toBase := .ibase 16 }

def binUnit : Unit := { short := "", category := .number, toBase := .ibase 2 }

def octUnit : Unit := { short := "", category := .number, toBase := .ibase 8 }

/-- token.go `hmsUnit`: hours-minutes-seconds display sentinel. -/
def hmsUnit : Unit := { short := "hms", category := .number, toBase := .hms }

/-- token.go `SecondsUnit`: the "s" catalogue entry (always present; the Go
code dereferences the map entry unconditionally). -/
def SecondsUnit : Unit := (LookupUnit "s").getD numUnit

/-- The Go zero value of `Unit` (all fields zero / nil). -/
def zeroUnit : Unit := { short := "", category := .number, toBase := .noneV }

/-- token.go `CompoundUnit`. -/
structure CompoundUnit where
  num : Unit
  den : Unit
deriving DecidableEq, Repr

/-- token.go `SimpleUnit`. -/
def SimpleUnit (u : Unit) : CompoundUnit := ⟨u, numUnit⟩

/-- token.go `(c CompoundUnit) IsEmpty`. -/
def CompoundUnit.isEmpty (c : CompoundUnit) : Bool :=
  c.num.category = .number ∧ c.den.category = .number

/-- token.go `(c CompoundUnit) String`. -/
def CompoundUnit.render (c : CompoundUnit) : String :=
  if c.isEmpty then ""
  else
    let num := if c.num.category ≠ UnitCategory.number then c.num.short else ""
    if c.den.category = .number then num
    else (if num = "" then "1" else num) ++ "/" ++ c.den.short

/-- token.go `(c CompoundUnit) HasOffset`. -/
def CompoundUnit.hasOffset (c : CompoundUnit) : Bool :=
  c.num.hasOffset || c.den.hasOffset

/-- token.go `(c CompoundUnit) Compatible`: category equality on both sides. -/
def CompoundUnit.compatible (c other : CompoundUnit) : Bool :=
  c.num.category = other.num.category ∧ c.den.category = other.den.category

/-! ## Value model (value.go, newest copy in the snapshot) -/

/-- value.go `Value`: a rational (possibly nil, for zero values) paired
with its unit. -/
structure Value where
  rat : Option ℚ
  unit : Unit
deriving DecidableEq, Repr

/-- Dereference a Go `*big.Rat` field.  The Go code only does this on
values whose rationals are non-nil; `0` stands for the nil case. -/
def Value.getRat (v : Value) : ℚ := v.rat.getD 0

/-- value.go `CompoundValue`: effective numeric value is `num.rat / den.rat`. -/
structure CompoundValue where
  num : Value
  den : Value
deriving DecidableEq, Repr

/-- The Go zero value `CompoundValue{}` (both rationals nil, zero units). -/
def zeroCV : CompoundValue := ⟨⟨none, zeroUnit⟩, ⟨none, zeroUnit⟩⟩

/-- value.go `oneVal`: dimensionless 1. -/
def oneVal : Value := ⟨some 1, numUnit⟩

/-- value.go `dimless`. -/
def dimless (r : ℚ) : CompoundValue := ⟨⟨some r, numUnit⟩, oneVal⟩

/-- value.go `simpleVal`. -/
def simpleVal (v : Value) : CompoundValue := ⟨v, oneVal⟩

/-- value.go `(v CompoundValue) IsTimestamp`. -/
def CompoundValue.isTimestamp (v : CompoundValue) : Bool :=
  v.num.unit.category = .timestamp ∧ v.den.unit.category = .number

/-- value.go `(v CompoundValue) CompoundUnit`. -/
def CompoundValue.compoundUnit (v : CompoundValue) : CompoundUnit :=
  ⟨v.num.unit, v.den.unit⟩

/-- value.go `(v CompoundValue) IsEmpty`. -/
def CompoundValue.isEmpty (v : CompoundValue) : Bool :=
  v.num.unit.category = .number ∧ v.den.unit.category = .number

/-- value.go `(v CompoundValue) effectiveRat`: `num.rat / den.rat`; if
`num.rat` is nil the result is a fresh zero; if `den.rat` is nil or zero,
a copy of `num.rat` is returned instead of dividing. -/
def CompoundValue.effectiveRat (v : CompoundValue) : ℚ :=
  match v.num.rat with
  | none => 0
  | some n =>
    match v.den.rat with
    | none => n
    | some d => if d = 0 then n else n / d

/-- value.go `(v CompoundValue) Sign` (big.Rat `Sign` semantics). -/
def CompoundValue.sign (v : CompoundValue) : Int :=
  let r := v.effectiveRat
  if r < 0 then -1 else if r = 0 then 0 else 1

/-- value.go `displayBase`: the numerator unit's `int` ToBase, when present. -/
def displayBase (v : CompoundValue) : Option Int :=
  match v.num.unit.toBase with
  | .ibase b => some b
  | _ => none

/-- value.go `(v CompoundValue) DisplayRat`. -/
def CompoundValue.displayRat (v : CompoundValue) : ℚ :=
  if v.num.unit.category = .timestamp then v.effectiveRat
  else
    let r := v.effectiveRat
    let r := if v.num.unit.category ≠ UnitCategory.number && !v.num.unit.hasOffset then
        r / toBaseRat v.num.unit else r
    if v.den.unit.category ≠ UnitCategory.number && !v.den.unit.hasOffset then
      r * toBaseRat v.den.unit else r

/-! ## Formatting (value.go, newest copy: `MaxDisplayLen`, `formatSci`) -/

/-- Decimal digit characters of a natural number (Go `big.Int.String` on
the absolute value). -/
def natStr (n : ℕ) : String := toString n

/-- Go `big.Rat.RatString`: `num/den`, or just `num` when den = 1. -/
def ratString (r : ℚ) : String :=
  if r.den = 1 then toString r.num
  else toString r.num ++ "/" ++ natStr r.den

/-- The fractional-digit loop of value.go `ratToDecimal`: produces up to
`prec` digits of `rem/den`, stopping early when the remainder hits zero. -/
def decDigits (prec : ℕ) (rem den : ℕ) : List Char :=
  match prec with
  | 0 => []
  | p + 1 =>
    let rem := rem * 10
    let digit := rem / den
    let rem := rem % den
    Char.ofNat ('0'.toNat + digit) :: if rem = 0 then [] else decDigits p rem den

/-- value.go `ratToDecimal`: decimal string with up to `prec` fractional
digits, trailing zeros trimmed. -/
def ratToDecimal (r : ℚ) (prec : ℕ) : String :=
  let neg := r < 0
  let num := r.num.natAbs
  let den := r.den
  let intPart := num / den
  let rem := num % den
  if rem = 0 then
    let s := natStr intPart
    if neg then "-" ++ s else s
  else
    let digits := decDigits prec rem den
    let s := String.mk ((digits.reverse.dropWhile (· = '0')).reverse)
    let result := natStr intPart ++ "." ++ s
    if neg then "-" ++ result else result

/-- value.go `formatDecimal`: always decimal, never a fraction. -/
def formatDecimal (r : ℚ) : String :=
  if r.den = 1 then toString r.num
  else ratToDecimal r 10

/-- value.go `formatRat` (newest copy, with the `MaxDisplayLen` budget).
`maxLen` models the host-settable global `MaxDisplayLen` (default 32);
`sci` models `formatSci`, which renders scientific notation through
float64 and is therefore taken as a parameter. -/
def formatRat (maxLen : ℕ) (sci : ℚ → String) (r : ℚ) : String :=
  if r.den = 1 then
    let s := toString r.num
    if s.length ≤ maxLen then s else sci r
  else
    let frac := ratString r
    if frac.length ≤ maxLen then frac
    else
      let dec := ratToDecimal r 10
      if dec.length ≤ maxLen && !(dec.data.getLast? = some '.' : Bool) then dec
      else sci r

/-- value.go `formatIntBase`: `0x…`/`0b…`/`0o…` with sign preserved
(Go `big.Int.Text` digits). -/
def formatIntBase (n : Int) (base : ℕ) : String :=
  let pre := if base = 16 then "0x" else if base = 2 then "0b" else if base = 8 then "0o" else ""
  let digits := String.mk (Nat.toDigits base n.natAbs)
  let s := pre ++ digits
  if n < 0 then "-" ++ s else s

/-- eval.go `ratFloor`. -/
def ratFloor (x : ℚ) : ℚ := (Rat.floor x : ℚ)

/-- eval.go `ratRound`: banker's rounding (half to even), via the floor. -/
def ratRound (x : ℚ) : ℚ :=
  if 0 ≤ x then
    let f := ratFloor x
    let frac := x - f
    if frac < 1/2 then f
    else if 1/2 < frac then f + 1
    else if (Rat.floor x) % 2 = 0 then f else f + 1
  else - (ratRound (-x))
termination_by (if 0 ≤ x then 0 else 1 : ℕ)
decreasing_by
  rename_i h
  simp only [not_le] at h
  have h1 : (0:ℚ) ≤ -x := by linarith
  simp [h1, not_le.mpr h]

/-- value.go `formatHMS`: seconds rendered as `Xh Ym Zs`. -/
def formatHMS (r : ℚ) : String :=
  let neg := r < 0
  let total := (|r|).floor.toNat
  let hours := total / 3600
  let rem := total % 3600
  let mins := rem / 60
  let secs := rem % 60
  let s := if hours > 0 then natStr hours ++ "h " else ""
  let s := if hours > 0 || mins > 0 then s ++ natStr mins ++ "m " else s
  let s := s ++ natStr secs ++ "s"
  if neg then "-" ++ s else s

/-- value.go `formatCurrency`: two fractional digits with banker's
rounding; symbol for known currencies, short-code suffix otherwise. -/
def formatCurrency (v : CompoundValue) : String :=
  let dr := v.displayRat
  let cents : Int := Rat.floor (ratRound (dr * 100))
  let neg := cents < 0
  let absCents := cents.natAbs
  let intPart := absCents / 100
  let fracPart := absCents % 100
  let fracStr := (if fracPart < 10 then "0" else "") ++ natStr fracPart
  let numStr0 := natStr intPart ++ "." ++ fracStr
  let numStr := if neg then "-" ++ numStr0 else numStr0
  match (currencySymbols.find? (fun p => p.1 == v.num.unit.short)).map Prod.snd with
  | some sym => if neg then "-" ++ sym ++ numStr0 else sym ++ numStr
  | none => numStr ++ " " ++ v.num.unit.short

/-- value.go `(v CompoundValue) String` (newest copy).  The timestamp
branch formats through the Go `time` package; it is abstracted by `fmtTs`,
which receives the stored rational and the unit's PreOffset (the display
zone).  `sci`/`maxLen` are threaded to `formatRat` as above. -/
def CompoundValue.render (fmtTs : ℚ → PreOffsetV → String) (maxLen : ℕ)
    (sci : ℚ → String) (v : CompoundValue) : String :=
  if v.num.unit.category = .timestamp then
    fmtTs v.num.getRat v.num.unit.preOffset
  else if v.num.unit.toBase = ToBaseV.hms then
    formatHMS v.effectiveRat
  else if v.num.unit.category = .currency ∧ v.den.unit.category = .number then
    formatCurrency v
  else
    let dr := v.displayRat
    let cu := v.compoundUnit
    match displayBase v with
    | some base =>
      if base ≠ 10 ∧ dr.den = 1 then formatIntBase dr.num base.toNat
      else
        let s := formatDecimal dr
        let us := cu.render
        if us ≠ "" then s ++ " " ++ us else s
    | none =>
      let s :=
        if cu.hasOffset || (cu.num.category = .time || cu.den.category = .time) then
          formatDecimal dr
        else formatRat maxLen sci dr
      let us := cu.render
      if us ≠ "" then s ++ " " ++ us else s

/-! ## Errors and arithmetic on compound values (value.go) -/

/-- value.go `EvalError`. -/
structure EvalError where
  msg : String
deriving DecidableEq, Repr

/-- value.go `unitEqual`: same compound unit structure — category and
short name on both the numerator and denominator sides. -/
def unitEqual (a b : CompoundValue) : Bool :=
  a.num.unit.category = b.num.unit.category ∧
  a.num.unit.short = b.num.unit.short ∧
  a.den.unit.category = b.den.unit.category ∧
  a.den.unit.short = b.den.unit.short

/-- value.go `hasTimeUnit`. -/
def hasTimeUnit (u : CompoundUnit) : Bool :=
  u.num.category = .time ∨ u.den.category = .time

/-- value.go `isSimpleTimeUnit`: time-category numerator, dimensionless
denominator. -/
def isSimpleTimeUnit (v : CompoundValue) : Bool :=
  v.num.unit.category = .time ∧ v.den.unit.category = .number

/-- value.go `durationToSeconds`. -/
def durationToSeconds (v : CompoundValue) : ℚ := v.effectiveRat

/-- value.go `compoundConversionFactor`. -/
def compoundConversionFactor (fromU toU : CompoundUnit) : ℚ :=
  let factor : ℚ := 1
  let factor :=
    if fromU.num.category ≠ UnitCategory.number && toU.num.category ≠ UnitCategory.number then
      factor * (toBaseRat fromU.num / toBaseRat toU.num)
    else factor
  if fromU.den.category ≠ UnitCategory.number && toU.den.category ≠ UnitCategory.number then
    factor * (toBaseRat toU.den / toBaseRat fromU.den)
  else factor

/-- value.go `valAdd`. -/
def valAdd (a b : CompoundValue) : Except EvalError CompoundValue :=
  if a.isTimestamp && b.isTimestamp then
    .error ⟨"cannot add two times"⟩
  else if a.isTimestamp && !b.isTimestamp then
    if isSimpleTimeUnit b then
      .ok (simpleVal ⟨some (a.num.getRat + durationToSeconds b), a.num.unit⟩)
    else .error ⟨"cannot add to time: use a time unit (s, min, hr, d, etc.)"⟩
  else if !a.isTimestamp && b.isTimestamp then
    if isSimpleTimeUnit a then
      .ok (simpleVal ⟨some (durationToSeconds a + b.num.getRat), b.num.unit⟩)
    else .error ⟨"cannot add to time: use a time unit (s, min, hr, d, etc.)"⟩
  else
    let au := a.compoundUnit
    let bu := b.compoundUnit
    if au.isEmpty && bu.isEmpty then
      .ok (dimless (a.effectiveRat + b.effectiveRat))
    else if au.isEmpty || bu.isEmpty then
      .error ⟨"cannot add values with and without units"⟩
    else if !(au.compatible bu) then
      .error ⟨"cannot add " ++ au.render ++ " and " ++ bu.render⟩
    else if au.hasOffset || bu.hasOffset then
      let factor := compoundConversionFactor bu au
      .ok ⟨⟨some (a.effectiveRat + b.effectiveRat * factor), a.num.unit⟩, ⟨some 1, a.den.unit⟩⟩
    else
      .ok ⟨⟨some (a.effectiveRat + b.effectiveRat), a.num.unit⟩, ⟨some 1, a.den.unit⟩⟩

/-- value.go `valSub`. -/
def valSub (a b : CompoundValue) : Except EvalError CompoundValue :=
  if a.isTimestamp && b.isTimestamp then
    .ok (simpleVal ⟨some (a.num.getRat - b.num.getRat), SecondsUnit⟩)
  else if a.isTimestamp && !b.isTimestamp then
    if isSimpleTimeUnit b then
      .ok (simpleVal ⟨some (a.num.getRat - durationToSeconds b), a.num.unit⟩)
    else .error ⟨"cannot subtract from time: use a time unit (s, min, hr, d, etc.)"⟩
  else if b.isTimestamp then
    .error ⟨"cannot subtract time from non-time value"⟩
  else
    let au := a.compoundUnit
    let bu := b.compoundUnit
    if au.isEmpty && bu.isEmpty then
      .ok (dimless (a.effectiveRat - b.effectiveRat))
    else if au.isEmpty || bu.isEmpty then
      .error ⟨"cannot subtract values with and without units"⟩
    else if !(au.compatible bu) then
      .error ⟨"cannot subtract " ++ au.render ++ " and " ++ bu.render⟩
    else if au.hasOffset || bu.hasOffset then
      let factor := compoundConversionFactor bu au
      .ok ⟨⟨some (a.effectiveRat - b.effectiveRat * factor), a.num.unit⟩, ⟨some 1, a.den.unit⟩⟩
    else
      .ok ⟨⟨some (a.effectiveRat - b.effectiveRat), a.num.unit⟩, ⟨some 1, a.den.unit⟩⟩

/-- The element type of the `nums`/`dens` lists in value.go `cancelUnits`. -/
structure CatUnit where
  cat : UnitCategory
  unit : Unit
deriving DecidableEq, Repr

/-- The inner loop of value.go `cancelUnits`: remove the first entry of
`dens` whose category matches, if any. -/
def removeFirstCat (c : UnitCategory) : List CatUnit → Option (List CatUnit)
  | [] => none
  | d :: rest =>
    if d.cat = c then some rest
    else (removeFirstCat c rest).map (d :: ·)

/-- The cancellation double loop of value.go `cancelUnits`: each `nums`
entry is cancelled against the first remaining same-category `dens`
entry. -/
def cancelLoop : List CatUnit → List CatUnit → List CatUnit × List CatUnit
  | [], dens => ([], dens)
  | n :: rest, dens =>
    match removeFirstCat n.cat dens with
    | some dens' => cancelLoop rest dens'
    | none =>
      let (ns, ds) := cancelLoop rest dens
      (n :: ns, ds)

/-- value.go `cancelUnits`: category cancellation for mul/div. -/
def cancelUnits (numA numB denA denB : Unit) : Except EvalError (Unit × Unit) :=
  let nums := (if numA.category ≠ UnitCategory.number then [CatUnit.mk numA.category numA] else [])
    ++ (if numB.category ≠ UnitCategory.number then [CatUnit.mk numB.category numB] else [])
  let dens := (if denA.category ≠ UnitCategory.number then [CatUnit.mk denA.category denA] else [])
    ++ (if denB.category ≠ UnitCategory.number then [CatUnit.mk denB.category denB] else [])
  let (nums, dens) := cancelLoop nums dens
  if nums.length > 1 then .error ⟨"cannot combine units"⟩
  else if dens.length > 1 then .error ⟨"cannot combine units"⟩
  else
    let resNum := match nums with
      | [n] => n.unit
      | _ => numUnit
    let resDen := match dens with
      | [d] => d.unit
      | _ => numUnit
    .ok (resNum, resDen)

/-- value.go `valMul`. -/
def valMul (a b : CompoundValue) : Except EvalError CompoundValue :=
  if a.isTimestamp || b.isTimestamp then
    .error ⟨"cannot multiply time values"⟩
  else
    let numRat := a.num.getRat * b.num.getRat
    let denRat := a.den.getRat * b.den.getRat
    match cancelUnits a.num.unit b.num.unit a.den.unit b.den.unit with
    | .error e => .error e
    | .ok (nu, du) => .ok ⟨⟨some numRat, nu⟩, ⟨some denRat, du⟩⟩

/-- value.go `valDiv`. -/
def valDiv (a b : CompoundValue) : Except EvalError CompoundValue :=
  if a.isTimestamp || b.isTimestamp then
    .error ⟨"cannot divide time values"⟩
  else if b.effectiveRat = 0 then
    .error ⟨"division by zero"⟩
  else
    let numRat := a.num.getRat * b.den.getRat
    let denRat := a.den.getRat * b.num.getRat
    match cancelUnits a.num.unit b.den.unit a.den.unit b.num.unit with
    | .error e => .error e
    | .ok (nu, du) => .ok ⟨⟨some numRat, nu⟩, ⟨some denRat, du⟩⟩

/-- value.go `valNeg`. -/
def valNeg (a : CompoundValue) : CompoundValue :=
  ⟨⟨some (-a.num.getRat), a.num.unit⟩, a.den⟩

/-- eval.go `valPow`: `left ** right`, exact for integer exponents.
The non-integer-exponent branch goes through `math.Pow` on float64 and is
abstracted by `powF` (returning `none` when the re-wrap of the float
result fails, i.e. the Go "result out of range" error). -/
def valPow (powF : ℚ → ℚ → Option ℚ) (left right : CompoundValue) :
    Except EvalError CompoundValue :=
  if !left.isEmpty then .error ⟨"** requires dimensionless values"⟩
  else if !right.isEmpty then .error ⟨"** requires dimensionless values"⟩
  else
    let baseR := left.effectiveRat
    let expR := right.effectiveRat
    if expR.den = 1 then
      let e := expR.num
      let r : ℚ := (baseR.num ^ e.natAbs : ℤ) / (baseR.den ^ e.natAbs : ℤ)
      if e < 0 then
        if r = 0 then .error ⟨"**: division by zero"⟩
        else .ok (dimless r⁻¹)
      else .ok (dimless r)
    else
      match powF baseR expR with
      | none => .error ⟨"**: result out of range"⟩
      | some r =>
        let v := dimless r
        .ok ⟨⟨v.num.rat, decUnit⟩, v.den⟩

/-! ## The `UnitExpr` branch of the evaluator (eval.go `Eval`) -/

/-- eval.go `Eval`, `case *UnitExpr`, extracted over the already-evaluated
operand `val` and the annotation's compound unit `target`: conversion when
the value already has a unit (cross-currency guard, offset-based
temperature formula, display relabel), first attachment otherwise. -/
def evalUnitExpr (val : CompoundValue) (target : CompoundUnit) :
    Except EvalError CompoundValue :=
  let valCU := val.compoundUnit
  if !valCU.isEmpty then
    if !(valCU.compatible target) then
      .error ⟨"cannot convert " ++ valCU.render ++ " to " ++ target.render⟩
    else if valCU.num.category = .currency ∧ target.num.category = .currency ∧
        valCU.num.short ≠ target.num.short then
      .error ⟨"__forex__"⟩
    else if valCU.hasOffset || target.hasOffset then
      if val.den.unit.category ≠ UnitCategory.number ∨ target.den.category ≠ UnitCategory.number then
        .error ⟨"temperature units cannot be used in compound units"⟩
      else
        let fromU := val.num.unit
        let toU := target.num
        let eff := val.effectiveRat
        let v := ((eff + preOffsetRat fromU) * toBaseRat fromU) / toBaseRat toU - preOffsetRat toU
        .ok (simpleVal ⟨some v, toU⟩)
    else
      .ok ⟨⟨val.num.rat, target.num⟩, ⟨val.den.rat, target.den⟩⟩
  else
    let eff := val.effectiveRat
    if target.hasOffset then
      .ok (simpleVal ⟨some eff, target.num⟩)
    else
      let numRat := if target.num.category ≠ UnitCategory.number then eff * toBaseRat target.num else eff
      let denRat : ℚ := if target.den.category ≠ UnitCategory.number then 1 * toBaseRat target.den else 1
      .ok ⟨⟨some numRat, target.num⟩, ⟨some denRat, target.den⟩⟩

/-! ## Named catalogue entries used by the theorems -/

/-- The catalogue entry for celsius. -/
def celsiusUnit : Unit := (LookupUnit "C").getD numUnit

/-- The catalogue entry for fahrenheit. -/
def fahrenheitUnit : Unit := (LookupUnit "F").getD numUnit

/-- The catalogue entry for meters. -/
def meterUnit : Unit := (LookupUnit "m").getD numUnit

/-- The catalogue entry for kilograms. -/
def kilogramUnit : Unit := (LookupUnit "kg").getD numUnit

/-- The catalogue entry for US dollars. -/
def usdUnit : Unit := (LookupUnit "USD").getD numUnit

/-- The catalogue entry for euros. -/
def eurUnit : Unit := (LookupUnit "EUR").getD numUnit

/-! ## Lexer (the current lexer source; byte indices become char indices) -/

/-- Token kinds emitted by the current lexer. -/
inductive TokenType where
  | number
  | word
  | plus
  | minus
  | star
  | starstar
  | slash
  | amp
  | pipe
  | caret
  | tilde
  | bang
  | lshift
  | rshift
  | lparen
  | rparen
  | equals
  | dot
  | hash
  | at
  | comma
  | percent
  | currency
  | time
  | eof
deriving DecidableEq, Repr

/-- token.go `Token`. -/
structure Token where
  type : TokenType
  literal : String
  pos : ℕ
deriving DecidableEq, Repr

/-- Lexer `isDigit`. -/
def isDigitC (c : Char) : Bool := '0' ≤ c && c ≤ '9'

/-- Lexer `isHexDigit`. -/
def isHexDigitC (c : Char) : Bool :=
  isDigitC c || ('a' ≤ c && c ≤ 'f') || ('A' ≤ c && c ≤ 'F')

/-- Lexer `isWordStart`. -/
def isWordStartC (c : Char) : Bool :=
  ('a' ≤ c && c ≤ 'z') || ('A' ≤ c && c ≤ 'Z') || c = '_'

/-- Lexer `isWordContinue`. -/
def isWordContinueC (c : Char) : Bool := isWordStartC c || isDigitC c

/-- Lexer `tryLexTime` on the characters from the number's start position:
`H[H]:MM` optionally followed by `:SS`; returns the matched length. -/
def tryLexTime (cs : List Char) : Option ℕ :=
  let hlen := (cs.takeWhile isDigitC).length
  if hlen < 1 ∨ hlen > 2 then none
  else
    match cs.drop hlen with
    | ':' :: m1 :: m2 :: rest2 =>
      if isDigitC m1 && isDigitC m2 then
        match rest2 with
        | ':' :: s1 :: s2 :: _ =>
          if isDigitC s1 && isDigitC s2 then some (hlen + 6) else some (hlen + 3)
        | _ => some (hlen + 3)
      else none
    | _ => none

/-- The optional timezone-offset tail of an `@` datetime literal
(` ±NNNN`): extra characters consumed. -/
def atOffsetLen (r : List Char) : ℕ :=
  match r with
  | ' ' :: sg :: d1 :: d2 :: d3 :: d4 :: _ =>
    if (sg = '+' || sg = '-') && isDigitC d1 && isDigitC d2 && isDigitC d3 && isDigitC d4 then 6
    else 0
  | _ => 0

/-- The optional time-of-day tail of an `@` date literal
(`T`/space then `H[H]:MM:SS`, then the optional offset): extra characters
consumed (0 when the pattern does not fully match, as in the source). -/
def atTimeLen (r : List Char) : ℕ :=
  match r with
  | sep :: k1 =>
    if sep = 'T' || sep = ' ' then
      match k1 with
      | h1 :: k2 =>
        if isDigitC h1 then
          let (hlen, k3) : ℕ × List Char :=
            match k2 with
            | h2 :: k3' => if isDigitC h2 then (2, k3') else (1, k2)
            | [] => (1, k2)
          match k3 with
          | c1 :: m1 :: m2 :: c2 :: s1 :: s2 :: rest =>
            if c1 = ':' && isDigitC m1 && isDigitC m2 && c2 = ':' && isDigitC s1 && isDigitC s2 then
              1 + hlen + 6 + atOffsetLen rest
            else 0
          | _ => 0
        else 0
      | [] => 0
    else 0
  | [] => 0

/-- The date attempt of `tryLexAt`: `YYYY-M[M]-D[D]` with the optional
time tail, starting after the four year digits. -/
def atDateLen (nd : ℕ) (after : List Char) : Option ℕ :=
  match after with
  | '-' :: m1 :: r2 =>
    if isDigitC m1 then
      let (mlen, r3) : ℕ × List Char :=
        match r2 with
        | m2 :: r3' => if isDigitC m2 then (2, r3') else (1, r2)
        | [] => (1, r2)
      match r3 with
      | '-' :: d1 :: r5 =>
        if isDigitC d1 then
          let (dlen, r6) : ℕ × List Char :=
            match r5 with
            | d2 :: r6' => if isDigitC d2 then (2, r6') else (1, r5)
            | [] => (1, r5)
          some (nd + 1 + mlen + 1 + dlen + atTimeLen r6)
        else none
      | _ => none
    else none
  | _ => none

/-- The clock attempt of `tryLexAt`: `H[H]:MM[:SS]` after 1–2 digits. -/
def atClockLen (nd : ℕ) (after : List Char) : Option ℕ :=
  match after with
  | ':' :: m1 :: m2 :: rest =>
    if isDigitC m1 && isDigitC m2 then
      match rest with
      | ':' :: s1 :: s2 :: _ =>
        if isDigitC s1 && isDigitC s2 then some (nd + 6) else some (nd + 3)
      | _ => some (nd + 3)
    else none
  | _ => none

/-- Lexer `tryLexAt` on the characters after `@`: date, clock, or plain
unix digits; returns the number of characters consumed after the `@`. -/
def tryLexAt (cs : List Char) : Option ℕ :=
  let nd := (cs.takeWhile isDigitC).length
  if nd = 0 then none
  else
    let after := cs.drop nd
    match (if nd = 4 then atDateLen nd after else none) with
    | some j => some j
    | none =>
      match (if nd ≤ 2 then atClockLen nd after else none) with
      | some j => some j
      | none => some nd

/-- The main loop of `Lex`, fuel-indexed (each iteration consumes at
least one character, so `input.length + 1` fuel suffices). -/
def lexLoop (fuel : ℕ) (cs : List Char) (i : ℕ) : List Token :=
  match fuel with
  | 0 => []
  | fuel + 1 =>
    match cs with
    | [] => [⟨.eof, "", i⟩]
    | c :: rest =>
      if c = ' ' ∨ c = '\t' ∨ c = '\r' ∨ c = '\n' then lexLoop fuel rest (i + 1)
      else if c = '+' then ⟨.plus, "+", i⟩ :: lexLoop fuel rest (i + 1)
      else if c = '-' then ⟨.minus, "-", i⟩ :: lexLoop fuel rest (i + 1)
      else if c = '*' then
        match rest with
        | '*' :: rest2 => ⟨.starstar, "**", i⟩ :: lexLoop fuel rest2 (i + 2)
        | _ => ⟨.star, "*", i⟩ :: lexLoop fuel rest (i + 1)
      else if c = '&' then ⟨.amp, "&", i⟩ :: lexLoop fuel rest (i + 1)
      else if c = '|' then ⟨.pipe, "|", i⟩ :: lexLoop fuel rest (i + 1)
      else if c = '^' then ⟨.caret, "^", i⟩ :: lexLoop fuel rest (i + 1)
      else if c = '~' then ⟨.tilde, "~", i⟩ :: lexLoop fuel rest (i + 1)
      else if c = '!' then ⟨.bang, "!", i⟩ :: lexLoop fuel rest (i + 1)
      else if c = '<' then
        match rest with
        | '<' :: rest2 => ⟨.lshift, "<<", i⟩ :: lexLoop fuel rest2 (i + 2)
        | _ => lexLoop fuel rest (i + 1)
      else if c = '>' then
        match rest with
        | '>' :: rest2 => ⟨.rshift, ">>", i⟩ :: lexLoop fuel rest2 (i + 2)
        | _ => lexLoop fuel rest (i + 1)
      else if c = '/' then ⟨.slash, "/", i⟩ :: lexLoop fuel rest (i + 1)
      else if c = '(' then ⟨.lparen, "(", i⟩ :: lexLoop fuel rest (i + 1)
      else if c = ')' then ⟨.rparen, ")", i⟩ :: lexLoop fuel rest (i + 1)
      else if c = '=' then ⟨.equals, "=", i⟩ :: lexLoop fuel rest (i + 1)
      else if c = '.' then ⟨.dot, ".", i⟩ :: lexLoop fuel rest (i + 1)
      else if c = '#' then ⟨.hash, "#", i⟩ :: lexLoop fuel rest (i + 1)
      else if c = ',' then ⟨.comma, ",", i⟩ :: lexLoop fuel rest (i + 1)
      else if c = '%' then ⟨.percent, "%", i⟩ :: lexLoop fuel rest (i + 1)
      else if c = '$' then ⟨.currency, "$", i⟩ :: lexLoop fuel rest (i + 1)
      else if c = '@' then
        match tryLexAt rest with
        | some n => ⟨.at, String.mk ('@' :: rest.take n), i⟩ :: lexLoop fuel (rest.drop n) (i + 1 + n)
        | none => lexLoop fuel rest (i + 1)
      else if isDigitC c then
        if c = '0' && (match rest with
            | n :: _ => n = 'x' || n = 'X' || n = 'b' || n = 'B' || n = 'o' || n = 'O'
            | [] => false) then
          match rest with
          | n :: rest2 =>
            let digs :=
              if n = 'x' ∨ n = 'X' then rest2.takeWhile isHexDigitC
              else if n = 'b' ∨ n = 'B' then rest2.takeWhile (fun d => d = '0' || d = '1')
              else rest2.takeWhile (fun d => '0' ≤ d && d ≤ '7')
            ⟨.number, String.mk (c :: n :: digs), i⟩ ::
              lexLoop fuel (rest2.drop digs.length) (i + 2 + digs.length)
          | [] => [⟨.eof, "", i⟩]
        else
          let digs := (c :: rest).takeWhile isDigitC
          let after := (c :: rest).drop digs.length
          if digs.length ≤ 2 ∧ after.head? = some ':' then
            match tryLexTime (c :: rest) with
            | some n =>
              ⟨.time, String.mk ((c :: rest).take n), i⟩ :: lexLoop fuel ((c :: rest).drop n) (i + n)
            | none =>
              ⟨.number, String.mk digs, i⟩ :: lexLoop fuel after (i + digs.length)
          else
            ⟨.number, String.mk digs, i⟩ :: lexLoop fuel after (i + digs.length)
      else if isWordStartC c then
        let taken := (c :: rest).takeWhile isWordContinueC
        ⟨.word, String.mk taken, i⟩ :: lexLoop fuel ((c :: rest).drop taken.length) (i + taken.length)
      else if c = '€' ∨ c = '£' ∨ c = '¥' then
        ⟨.currency, String.mk [c], i⟩ :: lexLoop fuel rest (i + 1)
      else lexLoop fuel rest (i + 1)

/-- `Lex`: tokenize one line (terminating EOF token included). -/
def Lex (input : String) : List Token :=
  lexLoop (input.length + 1) input.data 0

/-! ## Timezones (timezone.go) -/

/-- timezone.go `timezoneTable`: abbreviation to fixed UTC offset (s). -/
def timezoneTable : List (String × Int) :=
  [("UTC", 0), ("GMT", 0), ("EST", -18000), ("EDT", -14400), ("CST", -21600),
   ("CDT", -18000), ("MST", -25200), ("MDT", -21600), ("PST", -28800),
   ("PDT", -25200), ("CET", 3600), ("CEST", 7200), ("IST", 19800),
   ("JST", 32400), ("AEST", 36000), ("AEDT", 39600), ("NZST", 43200),
   ("NZDT", 46800)]

/-- timezone.go `IsTimezone`. -/
def IsTimezone (name : String) : Bool :=
  timezoneTable.any (fun p => p.1 == name)

/-- timezone.go `LookupTZUnit`: a timestamp unit whose PreOffset is the
fixed zone. -/
def LookupTZUnit (name : String) : Option Unit :=
  (timezoneTable.find? (fun p => p.1 == name)).map fun p =>
    { short := "timestamp", category := .timestamp, toBase := .rat (ratFromFrac 1 1),
      preOffset := .loc p.1 p.2 }

/-! ## Parser, modelled from the spec

The HEAD parser is missing from the snapshot: the parser.go present
predates the `**`, bitwise, percent, factorial and currency-prefix
syntax, recognises multi-word assignment targets, and does not
type-check against the current unit model (`SimpleUnit` there takes a
pointer, `CompoundUnit` there holds slices).  The functions below are
therefore `Modelled from the spec:` they follow the grammar and prose of
spec §4.2 (line/assignment split, the precedence ladder with unary above
exponent, context-sensitive `to`, AM/PM and timezone postfixes on
time-producing nodes, the number-literal rules with the source-position
adjacency check for fractions, and the `@`/currency desugarings). -/

/-- AST expression nodes (ast.go, current node set). -/
inductive Expr where
  | num (v : ℚ)
  | varRef (name : String)
  | binary (op : TokenType) (lhs rhs : Expr)
  | unary (op : TokenType) (e : Expr)
  | unitE (e : Expr) (u : CompoundUnit)
  | funcCall (name : String) (args : List Expr)
  | timeLit (raw : String)
  | tzExpr (e : Expr) (tz : String) (isInput : Bool)
  | ampm (e : Expr) (isPM : Bool)
  | percent (e : Expr)
  | factorial (e : Expr)
deriving Repr, BEq

/-- A parsed line: an assignment or a bare expression.  The spec grammar
produces assignments only at the `line` production. -/
inductive LineNode where
  | assign (name : String) (rhs : Expr)
  | expr (e : Expr)
deriving Repr, BEq

/-- parser.go `isAMPM` (case-insensitive AM/PM). -/
def isAMPM (s : String) : Bool := s.toUpper == "AM" || s.toUpper == "PM"

/-- parser.go `isTimeProducing`: nodes that may carry a timestamp
(a time literal, a function call, a prior AM/PM wrapper). -/
def isTimeProducing (e : Expr) : Bool :=
  match e with
  | .timeLit _ => true
  | .funcCall _ _ => true
  | .ampm _ _ => true
  | _ => false

/-- Peek the head token (an EOF token when past the end). -/
def peekT (ts : List Token) : Token := ts.headD ⟨.eof, "", 0⟩

/-- Digit value of a char in the given base (Go `big.Int.SetString`
accepts both letter cases). -/
def digitVal (base : ℕ) (c : Char) : Option ℕ :=
  let v :=
    if isDigitC c then some (c.toNat - '0'.toNat)
    else if 'a' ≤ c && c ≤ 'z' then some (c.toNat - 'a'.toNat + 10)
    else if 'A' ≤ c && c ≤ 'Z' then some (c.toNat - 'A'.toNat + 10)
    else none
  match v with
  | some d => if d < base then some d else none
  | none => none

/-- Parse a digit string in the given base (Go `big.Int.SetString`:
fails on an empty string or an invalid digit). -/
def parseNatBase (base : ℕ) (cs : List Char) : Option ℕ :=
  if cs.isEmpty then none
  else cs.foldlM (fun acc c => (digitVal base c).map (fun d => acc * base + d)) 0

/-- Modelled from the spec: number-literal parsing (§4.2 "Number
parsing") over a NUMBER token and its two lookahead tokens — `0x/0b/0o`
prefixed integers, `. NUMBER` decimals, byte-adjacent `/ NUMBER`
fractions, bare integers otherwise. -/
def parseNumberTok (ts : List Token) : Except EvalError (Expr × List Token) :=
  match ts with
  | [] => .error ⟨"unexpected end of input"⟩
  | t :: rest =>
    match t.literal.data with
    | '0' :: p :: ds =>
      if p = 'x' ∨ p = 'X' then
        match parseNatBase 16 ds with
        | some n => .ok (.num n, rest)
        | none => .error ⟨"invalid number: " ++ t.literal⟩
      else if p = 'b' ∨ p = 'B' then
        match parseNatBase 2 ds with
        | some n => .ok (.num n, rest)
        | none => .error ⟨"invalid number: " ++ t.literal⟩
      else if p = 'o' ∨ p = 'O' then
        match parseNatBase 8 ds with
        | some n => .ok (.num n, rest)
        | none => .error ⟨"invalid number: " ++ t.literal⟩
      else parseNumberPlain t rest
    | _ => parseNumberPlain t rest
where
  /-- The decimal / fraction / bare-integer cases. -/
  parseNumberPlain (t : Token) (rest : List Token) : Except EvalError (Expr × List Token) :=
    match rest with
    | d :: f :: rest2 =>
      if d.type = .dot then
        if f.type = .number then
          match parseNatBase 10 t.literal.data, parseNatBase 10 f.literal.data with
          | some a, some b =>
            .ok (.num ((a : ℚ) + (b : ℚ) / (10 : ℚ) ^ f.literal.length), rest2)
          | _, _ => .error ⟨"invalid number: " ++ t.literal ++ "." ++ f.literal⟩
        else .error ⟨"expected digits after decimal point"⟩
      else if d.type = .slash ∧ f.type = .number ∧
          d.pos = t.pos + t.literal.length ∧ f.pos = d.pos + 1 then
        match parseNatBase 10 t.literal.data, parseNatBase 10 f.literal.data with
        | some a, some b =>
          if b = 0 then .error ⟨"invalid fraction: " ++ t.literal ++ "/" ++ f.literal⟩
          else .ok (.num ((a : ℚ) / (b : ℚ)), rest2)
        | _, _ => .error ⟨"invalid fraction: " ++ t.literal ++ "/" ++ f.literal⟩
      else .ok (.num (((parseNatBase 10 t.literal.data).getD 0 : ℕ) : ℚ), rest)
    | [d] =>
      if d.type = .dot then .error ⟨"expected digits after decimal point"⟩
      else .ok (.num (((parseNatBase 10 t.literal.data).getD 0 : ℕ) : ℚ), rest)
    | [] => .ok (.num (((parseNatBase 10 t.literal.data).getD 0 : ℕ) : ℚ), rest)

/-- Characters of a string split on a separator (for the `@`-literal
desugaring). -/
def splitOn (sep : Char) (cs : List Char) : List (List Char) :=
  match cs with
  | [] => [[]]
  | c :: rest =>
    let r := splitOn sep rest
    if c = sep then [] :: r
    else match r with
      | g :: gs => (c :: g) :: gs
      | [] => [[c]]

/-- Modelled from the spec: `@`-literal desugaring (§4.2) into
`date(…)`, `time(…)` or `unix(…)`; a trailing ` ±NNNN` offset subtracts
the offset in seconds so the stored value is UTC. -/
def parseAtLiteral (lit : String) : Except EvalError Expr :=
  let raw := lit.data.drop 1
  if raw.contains '-' then
    let (offsetSeconds, raw) : Int × List Char :=
      if raw.length ≥ 6 then
        let tail := raw.drop (raw.length - 6)
        match tail with
        | [sp, sg, h1, h2, m1, m2] =>
          if sp = ' ' ∧ (sg = '+' ∨ sg = '-') ∧ isDigitC h1 ∧ isDigitC h2 ∧
              isDigitC m1 ∧ isDigitC m2 then
            let hh := (parseNatBase 10 [h1, h2]).getD 0
            let mm := (parseNatBase 10 [m1, m2]).getD 0
            let off : Int := hh * 3600 + mm * 60
            ((if sg = '-' then -off else off), raw.take (raw.length - 6))
          else (0, raw)
        | _ => (0, raw)
      else (0, raw)
    let (datePart, timePart) : List Char × List Char :=
      match raw.findIdx? (fun c => c = 'T') with
      | some idx => (raw.take idx, raw.drop (idx + 1))
      | none =>
        match raw.findIdx? (fun c => c = ' ') with
        | some idx => (raw.take idx, raw.drop (idx + 1))
        | none => (raw, [])
    match splitOn '-' datePart with
    | [y, mo, d] =>
      let args := [Expr.num (((parseNatBase 10 y).getD 0 : ℕ) : ℚ),
                   Expr.num (((parseNatBase 10 mo).getD 0 : ℕ) : ℚ),
                   Expr.num (((parseNatBase 10 d).getD 0 : ℕ) : ℚ)]
      let argsE : Except EvalError (List Expr) :=
        if timePart.isEmpty then .ok args
        else match splitOn ':' timePart with
          | [hh, mm, ss] =>
            .ok (args ++ [Expr.num (((parseNatBase 10 hh).getD 0 : ℕ) : ℚ),
                          Expr.num (((parseNatBase 10 mm).getD 0 : ℕ) : ℚ),
                          Expr.num (((parseNatBase 10 ss).getD 0 : ℕ) : ℚ)])
          | _ => .error ⟨"invalid @ literal: " ++ lit⟩
      match argsE with
      | .error e => .error e
      | .ok args =>
        let node := Expr.funcCall "date" args
        if offsetSeconds ≠ 0 then
          .ok (.binary .minus node
            (.unitE (.num (offsetSeconds : ℚ)) (SimpleUnit SecondsUnit)))
        else .ok node
    | _ => .error ⟨"invalid @ literal: " ++ lit⟩
  else if raw.contains ':' then
    match splitOn ':' raw with
    | [hh, mm] =>
      .ok (.funcCall "time" [.num (((parseNatBase 10 hh).getD 0 : ℕ) : ℚ),
                             .num (((parseNatBase 10 mm).getD 0 : ℕ) : ℚ)])
    | [hh, mm, ss] =>
      .ok (.funcCall "time" [.num (((parseNatBase 10 hh).getD 0 : ℕ) : ℚ),
                             .num (((parseNatBase 10 mm).getD 0 : ℕ) : ℚ),
                             .num (((parseNatBase 10 ss).getD 0 : ℕ) : ℚ)])
    | _ => .error ⟨"invalid @ literal: " ++ lit⟩
  else
    .ok (.funcCall "unix" [.num (((parseNatBase 10 raw).getD 0 : ℕ) : ℚ)])

/-- Parse the compound-unit target of a conversion: spec grammar
`compound_unit := UNIT ( '/' UNIT )?` (the leading token is already known
to name a unit). -/
def parseUnitTarget (ts : List Token) : Except EvalError (CompoundUnit × List Token) :=
  match ts with
  | t :: rest =>
    match LookupUnit t.literal with
    | none => .error ⟨"unknown unit: " ++ t.literal⟩
    | some u1 =>
      match rest with
      | s :: d :: rest2 =>
        if s.type = .slash ∧ d.type = .word then
          match LookupUnit d.literal with
          | some u2 => .ok (⟨u1, u2⟩, rest2)
          | none => .error ⟨"unknown unit: " ++ d.literal⟩
        else .ok (SimpleUnit u1, rest)
      | _ => .ok (SimpleUnit u1, rest)
  | [] => .error ⟨"expected unit after to"⟩

mutual

/-- Modelled from the spec: `expr := bit_or`, left-associative `|`. -/
def parseBitOr (fuel : ℕ) (ts : List Token) : Except EvalError (Expr × List Token) :=
  match fuel with
  | 0 => .error ⟨"expression too deeply nested"⟩
  | fuel + 1 => do
    let (e, rest) ← parseBitXor fuel ts
    parseBitOrTail fuel e rest

/-- The `('|' bit_xor)*` loop. -/
def parseBitOrTail (fuel : ℕ) (lhs : Expr) (ts : List Token) :
    Except EvalError (Expr × List Token) :=
  match fuel with
  | 0 => .error ⟨"expression too deeply nested"⟩
  | fuel + 1 =>
    if (peekT ts).type = .pipe then do
      let (rhs, rest) ← parseBitXor fuel (ts.drop 1)
      parseBitOrTail fuel (.binary .pipe lhs rhs) rest
    else .ok (lhs, ts)

/-- Modelled from the spec: left-associative `^`. -/
def parseBitXor (fuel : ℕ) (ts : List Token) : Except EvalError (Expr × List Token) :=
  match fuel with
  | 0 => .error ⟨"expression too deeply nested"⟩
  | fuel + 1 => do
    let (e, rest) ← parseBitAnd fuel ts
    parseBitXorTail fuel e rest

/-- The `('^' bit_and)*` loop. -/
def parseBitXorTail (fuel : ℕ) (lhs : Expr) (ts : List Token) :
    Except EvalError (Expr × List Token) :=
  match fuel with
  | 0 => .error ⟨"expression too deeply nested"⟩
  | fuel + 1 =>
    if (peekT ts).type = .caret then do
      let (rhs, rest) ← parseBitAnd fuel (ts.drop 1)
      parseBitXorTail fuel (.binary .caret lhs rhs) rest
    else .ok (lhs, ts)

/-- Modelled from the spec: left-associative `&`. -/
def parseBitAnd (fuel : ℕ) (ts : List Token) : Except EvalError (Expr × List Token) :=
  match fuel with
  | 0 => .error ⟨"expression too deeply nested"⟩
  | fuel + 1 => do
    let (e, rest) ← parseShift fuel ts
    parseBitAndTail fuel e rest

/-- The `('&' shift)*` loop. -/
def parseBitAndTail (fuel : ℕ) (lhs : Expr) (ts : List Token) :
    Except EvalError (Expr × List Token) :=
  match fuel with
  | 0 => .error ⟨"expression too deeply nested"⟩
  | fuel + 1 =>
    if (peekT ts).type = .amp then do
      let (rhs, rest) ← parseShift fuel (ts.drop 1)
      parseBitAndTail fuel (.binary .amp lhs rhs) rest
    else .ok (lhs, ts)

/-- Modelled from the spec: left-associative `<<` and `>>`. -/
def parseShift (fuel : ℕ) (ts : List Token) : Except EvalError (Expr × List Token) :=
  match fuel with
  | 0 => .error ⟨"expression too deeply nested"⟩
  | fuel + 1 => do
    let (e, rest) ← parseAddSub fuel ts
    parseShiftTail fuel e rest

/-- The `(('<<' | '>>') addsub)*` loop. -/
def parseShiftTail (fuel : ℕ) (lhs : Expr) (ts : List Token) :
    Except EvalError (Expr × List Token) :=
  match fuel with
  | 0 => .error ⟨"expression too deeply nested"⟩
  | fuel + 1 =>
    if (peekT ts).type = .lshift ∨ (peekT ts).type = .rshift then do
      let (rhs, rest) ← parseAddSub fuel (ts.drop 1)
      parseShiftTail fuel (.binary (peekT ts).type lhs rhs) rest
    else .ok (lhs, ts)

/-- Modelled from the spec: left-associative `+` and `-`. -/
def parseAddSub (fuel : ℕ) (ts : List Token) : Except EvalError (Expr × List Token) :=
  match fuel with
  | 0 => .error ⟨"expression too deeply nested"⟩
  | fuel + 1 => do
    let (e, rest) ← parseMulDiv fuel ts
    parseAddSubTail fuel e rest

/-- The `(('+' | '-') muldiv)*` loop. -/
def parseAddSubTail (fuel : ℕ) (lhs : Expr) (ts : List Token) :
    Except EvalError (Expr × List Token) :=
  match fuel with
  | 0 => .error ⟨"expression too deeply nested"⟩
  | fuel + 1 =>
    if (peekT ts).type = .plus ∨ (peekT ts).type = .minus then do
      let (rhs, rest) ← parseMulDiv fuel (ts.drop 1)
      parseAddSubTail fuel (.binary (peekT ts).type lhs rhs) rest
    else .ok (lhs, ts)

/-- Modelled from the spec: left-associative `*` and `/`. -/
def parseMulDiv (fuel : ℕ) (ts : List Token) : Except EvalError (Expr × List Token) :=
  match fuel with
  | 0 => .error ⟨"expression too deeply nested"⟩
  | fuel + 1 => do
    let (e, rest) ← parseUnaryE fuel ts
    parseMulDivTail fuel e rest

/-- The `(('*' | '/') unary)*` loop. -/
def parseMulDivTail (fuel : ℕ) (lhs : Expr) (ts : List Token) :
    Except EvalError (Expr × List Token) :=
  match fuel with
  | 0 => .error ⟨"expression too deeply nested"⟩
  | fuel + 1 =>
    if (peekT ts).type = .star ∨ (peekT ts).type = .slash then do
      let (rhs, rest) ← parseUnaryE fuel (ts.drop 1)
      parseMulDivTail fuel (.binary (peekT ts).type lhs rhs) rest
    else .ok (lhs, ts)

/-- Modelled from the spec: `unary := ('-' | '~') unary | exponent` —
unary sits above (binds looser than) the exponent level. -/
def parseUnaryE (fuel : ℕ) (ts : List Token) : Except EvalError (Expr × List Token) :=
  match fuel with
  | 0 => .error ⟨"expression too deeply nested"⟩
  | fuel + 1 =>
    if (peekT ts).type = .minus ∨ (peekT ts).type = .tilde then do
      let (e, rest) ← parseUnaryE fuel (ts.drop 1)
      .ok (.unary (peekT ts).type e, rest)
    else parseExponent fuel ts

/-- Modelled from the spec: `exponent := postfix ('**' unary)?`,
right-associative. -/
def parseExponent (fuel : ℕ) (ts : List Token) : Except EvalError (Expr × List Token) :=
  match fuel with
  | 0 => .error ⟨"expression too deeply nested"⟩
  | fuel + 1 => do
    let (e, rest) ← parsePostfix fuel ts
    if (peekT rest).type = .starstar then do
      let (rhs, rest2) ← parseUnaryE fuel (rest.drop 1)
      .ok (.binary .starstar e rhs, rest2)
    else .ok (e, rest)

/-- Modelled from the spec: `postfix := primary ('!' | '%' | UNIT |
AM_PM? TZ_ABBREV?)?` with AM/PM and timezone only after time-producing
nodes. -/
def parsePostfix (fuel : ℕ) (ts : List Token) : Except EvalError (Expr × List Token) :=
  match fuel with
  | 0 => .error ⟨"expression too deeply nested"⟩
  | fuel + 1 => do
    let (e, rest) ← parsePrimary fuel ts
    match (peekT rest).type with
    | .bang => .ok (.factorial e, rest.drop 1)
    | .percent => .ok (.percent e, rest.drop 1)
    | .word =>
      let w := (peekT rest).literal
      match LookupUnit w with
      | some u => .ok (.unitE e (SimpleUnit u), rest.drop 1)
      | none =>
        if isAMPM w ∧ isTimeProducing e then
          let e' := Expr.ampm e (w.toUpper == "PM")
          let rest' := rest.drop 1
          if (peekT rest').type = .word ∧ IsTimezone (peekT rest').literal then
            .ok (.tzExpr e' (peekT rest').literal true, rest'.drop 1)
          else .ok (e', rest')
        else if IsTimezone w ∧ isTimeProducing e then
          .ok (.tzExpr e w true, rest.drop 1)
        else .ok (e, rest)
    | _ => .ok (e, rest)

/-- Modelled from the spec: `primary := number | '@'-literal | TIME |
funccall | var | '#' NUMBER | CURRENCY primary | '(' expr ')'`. -/
def parsePrimary (fuel : ℕ) (ts : List Token) : Except EvalError (Expr × List Token) :=
  match fuel with
  | 0 => .error ⟨"expression too deeply nested"⟩
  | fuel + 1 =>
    match ts with
    | [] => .error ⟨"unexpected end of input"⟩
    | t :: rest =>
      match t.type with
      | .number => parseNumberTok ts
      | .at => do
        let e ← parseAtLiteral t.literal
        .ok (e, rest)
      | .time => .ok (.timeLit t.literal, rest)
      | .lparen => do
        let (e, rest2) ← parseBitOr fuel rest
        if (peekT rest2).type = .rparen then .ok (e, rest2.drop 1)
        else .error ⟨"expected closing paren"⟩
      | .hash =>
        if (peekT rest).type = .number then
          .ok (.varRef ("#" ++ (peekT rest).literal), rest.drop 1)
        else .error ⟨"expected number after #"⟩
      | .currency => do
        let (e, rest2) ← parsePrimary fuel rest
        match LookupUnit t.literal with
        | some u => .ok (.unitE e (SimpleUnit u), rest2)
        | none => .error ⟨"unknown currency: " ++ t.literal⟩
      | .word =>
        if (peekT rest).type = .lparen then parseFuncCall fuel ts
        else .ok (.varRef t.literal, rest)
      | _ => .error ⟨"unexpected token: " ++ t.literal⟩

/-- Modelled from the spec: `funccall := WORD '(' [expr (',' expr)*] ')'`. -/
def parseFuncCall (fuel : ℕ) (ts : List Token) : Except EvalError (Expr × List Token) :=
  match fuel with
  | 0 => .error ⟨"expression too deeply nested"⟩
  | fuel + 1 =>
    match ts with
    | t :: _lp :: rest =>
      if (peekT rest).type = .rparen then .ok (.funcCall t.literal [], rest.drop 1)
      else do
        let (arg, rest2) ← parseBitOr fuel rest
        parseFuncArgs fuel t.literal [arg] rest2
    | _ => .error ⟨"unexpected end of input"⟩

/-- The argument-list loop of `parseFuncCall`. -/
def parseFuncArgs (fuel : ℕ) (name : String) (args : List Expr) (ts : List Token) :
    Except EvalError (Expr × List Token) :=
  match fuel with
  | 0 => .error ⟨"expression too deeply nested"⟩
  | fuel + 1 =>
    if (peekT ts).type = .comma then do
      let (arg, rest) ← parseBitOr fuel (ts.drop 1)
      parseFuncArgs fuel name (args ++ [arg]) rest
    else if (peekT ts).type = .rparen then .ok (.funcCall name args, ts.drop 1)
    else .error ⟨"expected closing paren in function call"⟩

end

/-- Modelled from the spec: the context-sensitive `to` conversion layer,
applied once at the outermost level — `to` is promoted to a keyword only
when the following WORD is (a) a known unit, (b) a known timezone, or
(c) one of `unix`, `hex`, `bin`, `oct`, `hms`. -/
def parseConversion (e : Expr) (ts : List Token) :
    Except EvalError (Expr × List Token) :=
  match ts with
  | t1 :: t2 :: rest =>
    if t1.type = .word ∧ t1.literal = "to" ∧ t2.type = .word then
      if (LookupUnit t2.literal).isSome then do
        let (cu, rest2) ← parseUnitTarget (t2 :: rest)
        .ok (.unitE e cu, rest2)
      else if IsTimezone t2.literal then .ok (.tzExpr e t2.literal false, rest)
      else if t2.literal = "unix" then .ok (.funcCall "__to_unix" [e], rest)
      else if t2.literal = "hex" then .ok (.funcCall "__to_hex" [e], rest)
      else if t2.literal = "bin" then .ok (.funcCall "__to_bin" [e], rest)
      else if t2.literal = "oct" then .ok (.funcCall "__to_oct" [e], rest)
      else if t2.literal = "hms" then .ok (.funcCall "__to_hms" [e], rest)
      else .ok (e, ts)
    else .ok (e, ts)
  | _ => .ok (e, ts)

/-- Modelled from the spec: `conversion-or-expr`. -/
def parseConvExpr (fuel : ℕ) (ts : List Token) : Except EvalError (Expr × List Token) := do
  let (e, rest) ← parseBitOr fuel ts
  parseConversion e rest

/-- Modelled from the spec: assignment recognition — the token stream
begins with a WORD whose first character is alphabetic, immediately
followed by `=`. -/
def isAssignHead (ts : List Token) : Bool :=
  match ts with
  | t1 :: t2 :: _ =>
    t1.type = .word && t2.type = .equals &&
      (match t1.literal.data with
       | c :: _ => c.isAlpha
       | [] => false)
  | _ => false

/-- The default parser fuel for a token list. -/
def parseFuel (ts : List Token) : ℕ := (ts.length + 2) * 16

/-- Modelled from the spec: parse one line of tokens — empty line gives
no node; `line := assignment | conversion-or-expr`; trailing tokens are
an error. -/
def parseTokens (ts : List Token) : Except EvalError (Option LineNode) :=
  if ts.all (fun t => t.type = .eof) then .ok none
  else if isAssignHead ts then
    match parseConvExpr (parseFuel ts) (ts.drop 2) with
    | .error e => .error e
    | .ok (rhs, rest) =>
      if (peekT rest).type = .eof then .ok (some (.assign (peekT ts).literal rhs))
      else .error ⟨"unexpected token after assignment: " ++ (peekT rest).literal⟩
  else
    match parseConvExpr (parseFuel ts) ts with
    | .error e => .error e
    | .ok (e, rest) =>
      if (peekT rest).type = .eof then .ok (some (.expr e))
      else .error ⟨"unexpected token: " ++ (peekT rest).literal⟩

/-- eval.go `ParseLine`: lex, return no node when only EOF tokens came
out, parse otherwise. -/
def ParseLine (line : String) : Except EvalError (Option LineNode) :=
  parseTokens (Lex line)

/-! ## Incremental evaluator (incremental.go)

The per-line cache, dependency tracking and dirty propagation follow
incremental.go `EvalAllIncremental` line by line.  Two adaptations:

* The engine is parameterized by `LangOps` — the parse / dependency /
  evaluate / render functions it invokes (`ParseLine`, `CollectDeps`,
  `Eval`, `String()` in the source).  `Eval` samples the host clock
  (`now()`, time-of-day literals) and calls float64 math, so it cannot be
  a closed Lean definition; within one evaluation pass it is a pure
  function of the node and environment, which is what the parameter
  models.
* The change-detection comparison on a re-evaluated line is
  `Modelled from the spec:` the incremental.go in the snapshot predates
  the `CompoundValue` model (its cache stores a `Value` with an `IsTime`
  field that no longer exists) and never calls the current `unitEqual`,
  so the current comparison is missing from the sources.  Spec §4.8:
  "Equality of values for change detection compares the effective
  rational and the unit shape (category and short name on both sides)";
  "if the new value differs from the old value or the new error state
  differs from the old — add the assigned name to changed_vars". -/

/-- incremental.go `DepsInfo`. -/
structure DepsInfo where
  vars : List String
  usesNow : Bool
  assigns : String
deriving DecidableEq, Repr

/-- The zero `DepsInfo`. -/
def emptyDeps : DepsInfo := ⟨[], false, ""⟩

/-- incremental.go `CachedLine` (the `Node` field is the host parser's
AST type, kept abstract like the evaluator). -/
structure CachedLine (Node : Type) where
  text : String
  node : Option Node
  result : CompoundValue
  err : Option EvalError
  deps : DepsInfo
  isEmpty : Bool

/-- A reset cache entry: the Go zero value with `Text = "\x00"` to force
a dirty first evaluation. -/
def resetLine {Node : Type} : CachedLine Node :=
  ⟨"\x00", none, zeroCV, none, emptyDeps, false⟩

/-- incremental.go `EvalResult`. -/
structure EvalResult where
  text : String
  isErr : Bool
deriving DecidableEq, Repr

/-- incremental.go `EvalState`. -/
structure EvalState (Node : Type) where
  lines : List (CachedLine Node)

/-- The variable environment (`Env` in eval.go), as a lookup function. -/
def EnvF : Type := String → Option CompoundValue

/-- The `changedVars` set, as its membership function. -/
def ChangedF : Type := String → Bool

/-- Point update of an environment. -/
def envSet (env : EnvF) (k : String) (v : CompoundValue) : EnvF :=
  fun x => if x = k then some v else env x

/-- Point insertion into the changed-variables set. -/
def chSet (ch : ChangedF) (k : String) : ChangedF :=
  fun x => if x = k then true else ch x

/-- The language operations the engine invokes. -/
structure LangOps (Node : Type) where
  parseLine : String → Except EvalError (Option Node)
  collectDeps : Node → DepsInfo
  eval : Node → EnvF → Except EvalError CompoundValue
  render : CompoundValue → String

/-- incremental.go `itoa` (fuel-indexed: `n/10 < n`, so `n + 1` fuel
always suffices). -/
def itoaCore (fuel n : ℕ) : String :=
  match fuel with
  | 0 => ""
  | fuel + 1 =>
    if n < 10 then String.mk [Char.ofNat ('0'.toNat + n)]
    else itoaCore fuel (n / 10) ++ String.mk [Char.ofNat ('0'.toNat + n % 10)]

/-- incremental.go `itoa`. -/
def itoa (n : ℕ) : String := itoaCore (n + 1) n

/-- incremental.go `lineRef`: the `#N` environment key of line index `i`. -/
def lineRef (i : ℕ) : String := "#" ++ itoa (i + 1)

/-- incremental.go `ratEqual` (nil-aware rational comparison). -/
def ratEqual (a b : Option ℚ) : Bool :=
  match a, b with
  | none, none => true
  | some x, some y => x = y
  | _, _ => false

/-- Modelled from the spec: the change-detection equality on a
re-evaluated line's old and new values — the effective rational and the
unit shape (category and short name on both sides, via value.go
`unitEqual`); any mismatch counts as a change.  (The current
incremental.go is missing from the snapshot; see the section comment.) -/
def valuesEqualForChange (oldV newV : CompoundValue) : Bool :=
  ratEqual (some oldV.effectiveRat) (some newV.effectiveRat) && unitEqual oldV newV

/-- Go `unicode.IsSpace` restricted to the ASCII whitespace characters. -/
def isSpaceC (c : Char) : Bool :=
  c = ' ' || c = '\t' || c = '\n' || c = '\x0b' || c = '\x0c' || c = '\r'

/-- The blank/comment test of the engine (`strings.TrimSpace`, then
empty or a `;` / `//` line-comment marker). -/
def isEmptyLine (line : String) : Bool :=
  let trimmed := ((line.data.dropWhile isSpaceC).reverse.dropWhile isSpaceC).reverse
  match trimmed with
  | [] => true
  | ';' :: _ => true
  | '/' :: '/' :: _ => true
  | _ => false

/-- The clean-path emission of the engine: cached empty lines emit
nothing, cached errors re-emit their message (empty messages emit
nothing), cached values re-render. -/
def emitCached {Node : Type} (render : CompoundValue → String) (c : CachedLine Node) :
    EvalResult :=
  if c.isEmpty then ⟨"", false⟩
  else
    match c.err with
    | some e => if e.msg = "" then ⟨"", false⟩ else ⟨e.msg, true⟩
    | none => ⟨render c.result, false⟩

/-- One iteration of the `EvalAllIncremental` loop body for line `i`:
dirty detection (text change, `now()` tick, changed dependency), the
clean path (re-inject cached bindings, re-emit), and the dirty path
(re-parse, re-evaluate, update the cache, env and `changedVars`). -/
def processLine {Node : Type} (L : LangOps Node) (nowTicked : Bool) (i : ℕ)
    (line : String) (cached : CachedLine Node) (env : EnvF) (changed : ChangedF) :
    CachedLine Node × EnvF × ChangedF × EvalResult :=
  let isEmpty := isEmptyLine line
  let textChanged := cached.text ≠ line
  let dirty := textChanged
  let dirty := dirty || (cached.deps.usesNow && nowTicked)
  let dirty := dirty || (!cached.isEmpty && cached.deps.vars.any changed)
  if !dirty && !textChanged then
    let env :=
      if !cached.isEmpty && cached.err.isNone then
        let env :=
          if cached.deps.assigns ≠ "" then envSet env cached.deps.assigns cached.result
          else env
        envSet env (lineRef i) cached.result
      else env
    (cached, env, changed, emitCached L.render cached)
  else if isEmpty then
    (⟨line, none, zeroCV, none, emptyDeps, true⟩, env, changed, ⟨"", false⟩)
  else
    match L.parseLine line with
    | .error err =>
      (⟨line, none, zeroCV, some err, emptyDeps, isEmpty⟩, env, changed, ⟨err.msg, true⟩)
    | .ok none =>
      (⟨line, none, zeroCV, some ⟨""⟩, emptyDeps, true⟩, env, changed, ⟨"", false⟩)
    | .ok (some node) =>
      let deps := L.collectDeps node
      match L.eval node env with
      | .error err =>
        let res := if err.msg = "" then EvalResult.mk "" false else ⟨err.msg, true⟩
        let changed := if deps.assigns ≠ "" then chSet changed deps.assigns else changed
        let changed := chSet changed (lineRef i)
        (⟨line, some node, zeroCV, some err, deps, isEmpty⟩, env, changed, res)
      | .ok val =>
        let oldResult := cached.result
        let ch := !(valuesEqualForChange oldResult val) || cached.err.isSome
        let env := if deps.assigns ≠ "" then envSet env deps.assigns val else env
        let changed :=
          if deps.assigns ≠ "" && ch then chSet changed deps.assigns else changed
        let env := envSet env (lineRef i) val
        let changed := if ch then chSet changed (lineRef i) else changed
        (⟨line, some node, val, none, deps, isEmpty⟩, env, changed, ⟨L.render val, false⟩)

/-- The loop of `EvalAllIncremental` over the (line, cache entry) pairs. -/
def evalLines {Node : Type} (L : LangOps Node) (nowTicked : Bool) :
    List (String × CachedLine Node) → ℕ → EnvF → ChangedF →
    List (CachedLine Node) × EnvF × ChangedF × List EvalResult
  | [], _, env, changed => ([], env, changed, [])
  | (line, cached) :: rest, i, env, changed =>
    let (c', env', changed', res) := processLine L nowTicked i line cached env changed
    let (cs, env2, ch2, results) := evalLines L nowTicked rest (i + 1) env' changed'
    (c' :: cs, env2, ch2, res :: results)

/-- incremental.go `EvalAllIncremental`: full cache reset when the line
count changes, then the per-line loop with a fresh environment and an
empty changed-variables set. -/
def EvalAllIncremental {Node : Type} (L : LangOps Node) (st : EvalState Node)
    (lines : List String) (nowTicked : Bool) : EvalState Node × List EvalResult :=
  let cache :=
    if lines.length = st.lines.length then st.lines
    else lines.map (fun _ => resetLine)
  let (cs, _, _, results) :=
    evalLines L nowTicked (lines.zip cache) 0 (fun _ => none) (fun _ => false)
  (⟨cs⟩, results)

/-! ## Helper lemmas -/

/-- `toString` on an integer is the sign followed by the digits of the
absolute value. -/
theorem int_toString (n : ℤ) :
    toString n = if n < 0 then "-" ++ natStr n.natAbs else natStr n.natAbs := by
  cases n with
  | ofNat m =>
    rw [if_neg (by exact not_lt.mpr (Int.natCast_nonneg m))]
    rfl
  | negSucc m =>
    rw [if_pos (Int.negSucc_lt_zero m)]
    rfl

/-- `ratToDecimal` of an integral rational is the plain integer string. -/
theorem ratToDecimal_den_one (r : ℚ) (h : r.den = 1) :
    ratToDecimal r 10 = toString r.num := by
  unfold ratToDecimal
  rw [h, int_toString r.num]
  simp only [Nat.mod_one, Nat.div_one, eq_self_iff_true, if_true, Rat.num_neg]

/-- `ratString` of an integral rational is the plain integer string. -/
theorem ratString_den_one (r : ℚ) (h : r.den = 1) : ratString r = toString r.num := by
  unfold ratString
  rw [if_pos h]

/-- The effective rational of a dimensionless wrapper. -/
theorem dimless_eff (T : ℚ) : (dimless T).effectiveRat = T := by
  simp [dimless, CompoundValue.effectiveRat, oneVal]

/-- The effective rational of a simple (denominator-free) value. -/
theorem simpleVal_eff (T : ℚ) (u : Unit) :
    (simpleVal ⟨some T, u⟩).effectiveRat = T := by
  simp [simpleVal, CompoundValue.effectiveRat, oneVal]

/-- Attaching a unit to a dimensionless value: the offset branch
(temperature) stores the display value unchanged. -/
theorem attach_offset (T : ℚ) (u : Unit) (hu : u.category = .temperature) :
    evalUnitExpr (dimless T) (SimpleUnit u) = .ok (simpleVal ⟨some T, u⟩) := by
  simp [evalUnitExpr, dimless, SimpleUnit, CompoundValue.compoundUnit,
    CompoundUnit.isEmpty, numUnit, CompoundUnit.hasOffset, Unit.hasOffset, hu,
    oneVal, simpleVal]
  simp [CompoundValue.effectiveRat, oneVal]

/-- Attaching a non-offset unit to a dimensionless value multiplies the
magnitude into base units. -/
theorem attach_nonoffset (a t1 : ℚ) (u1 : Unit) (hnn : u1.category ≠ .number)
    (hno : u1.hasOffset = false) (htb : u1.toBase = .rat t1) :
    evalUnitExpr (dimless a) (SimpleUnit u1)
      = .ok ⟨⟨some (a * t1), u1⟩, ⟨some 1, numUnit⟩⟩ := by
  have htemp : u1.category ≠ .temperature := by
    simpa [Unit.hasOffset] using hno
  simp [evalUnitExpr, dimless, SimpleUnit, CompoundValue.compoundUnit,
    CompoundUnit.isEmpty, numUnit, CompoundUnit.hasOffset, Unit.hasOffset, htemp,
    oneVal, hnn, toBaseRat, htb]
  simp [CompoundValue.effectiveRat]

/-- The offset-based conversion branch: `kelvin = (value + pre_offset(f))
* to_base(f)`, then `result = kelvin / to_base(t) - pre_offset(t)`. -/
theorem offset_convert_formula (x : ℚ) (f t : Unit)
    (hf : f.category = .temperature) (ht : t.category = .temperature) :
    evalUnitExpr (simpleVal ⟨some x, f⟩) (SimpleUnit t)
      = .ok (simpleVal ⟨some (((x + preOffsetRat f) * toBaseRat f) / toBaseRat t
          - preOffsetRat t), t⟩) := by
  have h1 : (simpleVal ⟨some x, f⟩).effectiveRat = x := simpleVal_eff x f
  simp [evalUnitExpr, simpleVal, SimpleUnit, CompoundValue.compoundUnit,
    CompoundUnit.isEmpty, numUnit, CompoundUnit.hasOffset, Unit.hasOffset,
    CompoundUnit.compatible, hf, ht, oneVal]
  simp [CompoundValue.effectiveRat]

/-- The C → F → C round trip is the identity on evaluation results. -/
theorem celsius_roundtrip (T : ℚ) :
    ((evalUnitExpr (dimless T) (SimpleUnit celsiusUnit)).bind fun vC =>
      (evalUnitExpr vC (SimpleUnit fahrenheitUnit)).bind fun vF =>
        evalUnitExpr vF (SimpleUnit celsiusUnit))
      = evalUnitExpr (dimless T) (SimpleUnit celsiusUnit) := by
  have hcC : celsiusUnit.category = UnitCategory.temperature := by decide
  have hcF : fahrenheitUnit.category = UnitCategory.temperature := by decide
  rw [attach_offset T celsiusUnit hcC]
  show ((evalUnitExpr (simpleVal ⟨some T, celsiusUnit⟩) (SimpleUnit fahrenheitUnit)).bind
      fun vF => evalUnitExpr vF (SimpleUnit celsiusUnit)) = _
  rw [offset_convert_formula T celsiusUnit fahrenheitUnit hcC hcF]
  show evalUnitExpr (simpleVal ⟨some _, fahrenheitUnit⟩) (SimpleUnit celsiusUnit) = _
  rw [offset_convert_formula _ fahrenheitUnit celsiusUnit hcF hcC]
  have htC : toBaseRat celsiusUnit = 1 := by decide
  have htF : toBaseRat fahrenheitUnit = mkRat 5 9 := by decide
  have hne : (mkRat 5 9 : ℚ) ≠ 0 := by decide
  rw [htC, htF]
  congr 2
  field_simp
  ring

/-! ## C10 -/

/-- C10: computing the effective rational is total on every
`CompoundValue`, including the zero value: a nil numerator gives 0, a nil
or zero denominator gives (a copy of) the numerator instead of dividing,
and only a provably nonzero denominator is divided by — so the effective
magnitude, sign, display magnitude and rendered string of the zero value
are all well defined. -/
theorem effectiveRat_total_nil_safe :
    (∀ v : CompoundValue, v.num.rat = none → v.effectiveRat = 0) ∧
    (∀ (v : CompoundValue) (q : ℚ), v.num.rat = some q →
      v.den.rat = none ∨ v.den.rat = some 0 → v.effectiveRat = q) ∧
    (∀ (v : CompoundValue) (q d : ℚ), v.num.rat = some q → v.den.rat = some d →
      d ≠ 0 → v.effectiveRat = q / d) ∧
    zeroCV.effectiveRat = 0 ∧ zeroCV.sign = 0 ∧ zeroCV.displayRat = 0 ∧
    CompoundValue.render (fun _ _ => "") 32 (fun _ => "") zeroCV = "0" := by
  refine ⟨?_, ?_, ?_, ?_, ?_, ?_, ?_⟩
  · intro v h
    simp [CompoundValue.effectiveRat, h]
  · intro v q hq hden
    rcases hden with h | h <;> simp [CompoundValue.effectiveRat, hq, h]
  · intro v q d hq hd hdne
    simp [CompoundValue.effectiveRat, hq, hd, hdne]
  · rfl
  · rfl
  · rfl
  · rfl

/-- Witness for C10 at concrete values: the zero value, a zero
denominator, and a genuine division. -/
theorem effectiveRat_total_nil_safe_witness :
    zeroCV.effectiveRat = 0 ∧
    (CompoundValue.mk ⟨some 7, numUnit⟩ ⟨some 0, numUnit⟩).effectiveRat = 7 ∧
    (CompoundValue.mk ⟨some 7, numUnit⟩ ⟨some 2, numUnit⟩).effectiveRat = 7 / 2 :=
  ⟨effectiveRat_total_nil_safe.1 zeroCV rfl,
   effectiveRat_total_nil_safe.2.1 _ 7 rfl (Or.inr rfl),
   effectiveRat_total_nil_safe.2.2.1 _ 7 2 rfl rfl (by norm_num)⟩

/-! ## C8 (corrected) -/

/-- Counterexample to C8 as stated: at `1/10^33` the fraction form does
not fit the default 32-character budget and the 10-digit decimal
(`"0."` — all significance lost) does fit, yet the formatter falls back
to scientific notation instead of rendering that decimal (shown with a
representative scientific renderer; the branch taken does not depend on
it). -/
theorem formatRat_decimal_significance_counterexample :
    32 < (ratString (mkRat 1 (10 ^ 33))).length ∧
    (ratToDecimal (mkRat 1 (10 ^ 33)) 10).length ≤ 32 ∧
    ratToDecimal (mkRat 1 (10 ^ 33)) 10 = "0." ∧
    formatRat 32 (fun _ => "1e-33") (mkRat 1 (10 ^ 33)) = "1e-33" ∧
    "1e-33" ≠ ratToDecimal (mkRat 1 (10 ^ 33)) 10 := by
  decide

/-- C8 amended: in the default rendering path the formatter renders the
fraction form `num/den` (the bare integer when the value is integral)
when it fits the display-width budget; otherwise the decimal with up to
10 fractional digits, provided it fits **and keeps at least one
significant fractional digit (does not degenerate to a bare `"0."`)**;
otherwise the scientific fallback (`formatSci`, float64-based, here the
abstract `sci`). -/
theorem formatRat_branch_characterization (maxLen : ℕ) (sci : ℚ → String) (r : ℚ) :
    formatRat maxLen sci r =
      if (ratString r).length ≤ maxLen then ratString r
      else if (ratToDecimal r 10).length ≤ maxLen ∧
          ¬((ratToDecimal r 10).data.getLast? = some '.') then ratToDecimal r 10
      else sci r := by
  have hb : (decide ((ratToDecimal r 10).length ≤ maxLen) &&
      !decide ((ratToDecimal r 10).data.getLast? = some '.')) = true ↔
      ((ratToDecimal r 10).length ≤ maxLen ∧
        ¬((ratToDecimal r 10).data.getLast? = some '.')) := by simp
  by_cases hden : r.den = 1
  · rw [ratString_den_one r hden, ratToDecimal_den_one r hden]
    simp only [formatRat, if_pos hden]
    by_cases h1 : (toString r.num).length ≤ maxLen
    · rw [if_pos h1, if_pos h1]
    · rw [if_neg h1, if_neg h1, if_neg (by tauto)]
  · simp only [formatRat, if_neg hden]
    by_cases h1 : (ratString r).length ≤ maxLen
    · rw [if_pos h1, if_pos h1]
    · rw [if_neg h1, if_neg h1]
      by_cases h2 : (ratToDecimal r 10).length ≤ maxLen ∧
          ¬((ratToDecimal r 10).data.getLast? = some '.')
      · rw [if_pos h2, if_pos (hb.mpr h2)]
      · rw [if_neg h2, if_neg (fun hc => h2 (hb.mp hc))]

/-! ## C6 -/

/-- C6: converting a currency value to a **different** currency fails
with the machine-recognisable sentinel `__forex__`, while converting to
the **same** currency leaves both stored rationals unchanged and only
replaces the display units (a value no-op). -/
theorem currency_conversion_forex_guard :
    (∀ (v : CompoundValue) (u : Unit),
      v.num.unit.category = .currency → v.den.unit.category = .number →
      u.category = .currency → v.num.unit.short ≠ u.short →
      evalUnitExpr v (SimpleUnit u) = .error ⟨"__forex__"⟩) ∧
    (∀ (v : CompoundValue) (u : Unit),
      v.num.unit.category = .currency → v.den.unit.category = .number →
      u.category = .currency → v.num.unit.short = u.short →
      evalUnitExpr v (SimpleUnit u) = .ok ⟨⟨v.num.rat, u⟩, ⟨v.den.rat, numUnit⟩⟩) := by
  constructor
  · intro v u hnc hdc huc hne
    unfold evalUnitExpr
    simp [CompoundValue.compoundUnit, CompoundUnit.isEmpty, SimpleUnit,
      CompoundUnit.compatible, hnc, hdc, huc, numUnit, hne]
  · intro v u hnc hdc huc heq
    unfold evalUnitExpr
    simp [CompoundValue.compoundUnit, CompoundUnit.isEmpty, SimpleUnit,
      CompoundUnit.compatible, CompoundUnit.hasOffset, Unit.hasOffset,
      hnc, hdc, huc, numUnit, heq]

/-- Witness for C6: `$50 to EUR` is the forex sentinel; `$50 to USD` is
a value no-op that relabels the display unit. -/
theorem currency_conversion_forex_guard_witness :
    evalUnitExpr ⟨⟨some 50, usdUnit⟩, oneVal⟩ (SimpleUnit eurUnit) = .error ⟨"__forex__"⟩ ∧
    evalUnitExpr ⟨⟨some 50, usdUnit⟩, oneVal⟩ (SimpleUnit usdUnit)
      = .ok ⟨⟨some 50, usdUnit⟩, ⟨some 1, numUnit⟩⟩ :=
  ⟨currency_conversion_forex_guard.1 _ _ (by decide) (by decide) (by decide) (by decide),
   currency_conversion_forex_guard.2 _ _ (by decide) (by decide) (by decide) (by decide)⟩

/-! ## C4 -/

/-- C4: `T C to F to C` evaluates (and hence renders) identically to
`T C` for every rational `T`; the offset-based conversion computes
`kelvin = (value + pre_offset) * to_base` then
`result = kelvin / to_base - pre_offset`; and the catalogue factors are
exactly C: to-base 1, pre-offset 273.15 and F: to-base 5/9,
pre-offset 459.67. -/
theorem temperature_roundtrip_and_formula :
    (∀ T : ℚ, evalUnitExpr (dimless T) (SimpleUnit celsiusUnit)
        = .ok (simpleVal ⟨some T, celsiusUnit⟩)) ∧
    (∀ T : ℚ,
      ((evalUnitExpr (dimless T) (SimpleUnit celsiusUnit)).bind fun vC =>
        (evalUnitExpr vC (SimpleUnit fahrenheitUnit)).bind fun vF =>
          evalUnitExpr vF (SimpleUnit celsiusUnit))
        = evalUnitExpr (dimless T) (SimpleUnit celsiusUnit)) ∧
    (∀ (T : ℚ) (fmtTs : ℚ → PreOffsetV → String) (maxLen : ℕ) (sci : ℚ → String),
      (((evalUnitExpr (dimless T) (SimpleUnit celsiusUnit)).bind fun vC =>
        (evalUnitExpr vC (SimpleUnit fahrenheitUnit)).bind fun vF =>
          evalUnitExpr vF (SimpleUnit celsiusUnit)).map
            (CompoundValue.render fmtTs maxLen sci))
        = (evalUnitExpr (dimless T) (SimpleUnit celsiusUnit)).map
            (CompoundValue.render fmtTs maxLen sci)) ∧
    (∀ (x : ℚ) (f t : Unit),
      f.category = .temperature → t.category = .temperature →
      evalUnitExpr (simpleVal ⟨some x, f⟩) (SimpleUnit t)
        = .ok (simpleVal ⟨some (((x + preOffsetRat f) * toBaseRat f) / toBaseRat t
            - preOffsetRat t), t⟩)) ∧
    (toBaseRat celsiusUnit = 1 ∧ preOffsetRat celsiusUnit = 27315 / 100 ∧
     toBaseRat fahrenheitUnit = 5 / 9 ∧ preOffsetRat fahrenheitUnit = 45967 / 100) := by
  refine ⟨fun T => attach_offset T celsiusUnit (by decide), celsius_roundtrip,
    fun T fmtTs maxLen sci => by rw [celsius_roundtrip T],
    offset_convert_formula, by decide, ?_, ?_, ?_⟩
  · have h : preOffsetRat celsiusUnit = mkRat 27315 100 := by decide
    rw [h, Rat.mkRat_eq_div]; norm_num
  · have h : toBaseRat fahrenheitUnit = mkRat 5 9 := by decide
    rw [h, Rat.mkRat_eq_div]; norm_num
  · have h : preOffsetRat fahrenheitUnit = mkRat 45967 100 := by decide
    rw [h, Rat.mkRat_eq_div]; norm_num

/-- Witness for C4's offset-formula part at 100 C → F. -/
theorem temperature_roundtrip_and_formula_witness :
    celsiusUnit.category = .temperature ∧ fahrenheitUnit.category = .temperature ∧
    evalUnitExpr (simpleVal ⟨some 100, celsiusUnit⟩) (SimpleUnit fahrenheitUnit)
      = .ok (simpleVal ⟨some (((100 + preOffsetRat celsiusUnit) * toBaseRat celsiusUnit)
          / toBaseRat fahrenheitUnit - preOffsetRat fahrenheitUnit), fahrenheitUnit⟩) :=
  ⟨by decide, by decide,
   temperature_roundtrip_and_formula.2.2.2.1 100 celsiusUnit fahrenheitUnit
     (by decide) (by decide)⟩

/-! ## C3 -/

/-- C3: dividing `(a u1)` by `(b u2)` for same-category, non-offset,
non-timestamp units cancels the category and yields the dimensionless
value `a*to_base(u1) / (b*to_base(u2))`; in multiplication, two distinct
categories on the numerator side (`5 m * 3 kg`) and a same-side repeat
(`m * m`) both fail with "cannot combine units". -/
theorem category_cancellation :
    (∀ (a b t1 t2 : ℚ) (u1 u2 : Unit),
      u1.category = u2.category → u1.category ≠ .number →
      u1.category ≠ .timestamp →
      u1.hasOffset = false → u2.hasOffset = false →
      u1.toBase = .rat t1 → u2.toBase = .rat t2 →
      0 < t1 → 0 < t2 → b ≠ 0 →
      ∃ va vb r, evalUnitExpr (dimless a) (SimpleUnit u1) = .ok va ∧
        evalUnitExpr (dimless b) (SimpleUnit u2) = .ok vb ∧
        valDiv va vb = .ok r ∧ r.isEmpty = true ∧
        r.effectiveRat = a * t1 / (b * t2)) ∧
    (∃ vm vkg, evalUnitExpr (dimless 5) (SimpleUnit meterUnit) = .ok vm ∧
      evalUnitExpr (dimless 3) (SimpleUnit kilogramUnit) = .ok vkg ∧
      valMul vm vkg = .error ⟨"cannot combine units"⟩) ∧
    (∃ v1 v2, evalUnitExpr (dimless 1) (SimpleUnit meterUnit) = .ok v1 ∧
      evalUnitExpr (dimless 1) (SimpleUnit meterUnit) = .ok v2 ∧
      valMul v1 v2 = .error ⟨"cannot combine units"⟩) := by
  refine ⟨?_, ?_, ?_⟩
  · intro a b t1 t2 u1 u2 hcat hnn hnts hno1 hno2 htb1 htb2 _hpos1 hpos2 hb
    have hnn2 : u2.category ≠ .number := fun h => hnn (hcat.trans h)
    have hts : u1.category ≠ .timestamp := hnts
    have hts2 : u2.category ≠ .timestamp := fun h => hnts (hcat.trans h)
    have ht2ne : t2 ≠ 0 := ne_of_gt hpos2
    have hbt2 : b * t2 ≠ 0 := mul_ne_zero hb ht2ne
    refine ⟨_, _, ⟨⟨some (a * t1 * 1), numUnit⟩, ⟨some (1 * (b * t2)), numUnit⟩⟩,
      attach_nonoffset a t1 u1 hnn hno1 htb1,
      attach_nonoffset b t2 u2 hnn2 hno2 htb2, ?_, rfl, ?_⟩
    · unfold valDiv
      have h1 : (CompoundValue.mk ⟨some (a * t1), u1⟩ ⟨some 1, numUnit⟩).isTimestamp
          = false := by
        simp [CompoundValue.isTimestamp, hts]
      have h2 : (CompoundValue.mk ⟨some (b * t2), u2⟩ ⟨some 1, numUnit⟩).isTimestamp
          = false := by
        simp [CompoundValue.isTimestamp, hts2]
      rw [h1, h2]
      have heff : (CompoundValue.mk ⟨some (b * t2), u2⟩ ⟨some 1, numUnit⟩).effectiveRat
          = b * t2 := by
        simp [CompoundValue.effectiveRat]
      simp only [Bool.false_or, Bool.or_self, heff, if_neg hbt2, Bool.false_eq_true,
        if_false]
      have hcancel : cancelUnits u1 numUnit numUnit u2 = .ok (numUnit, numUnit) := by
        simp [cancelUnits, hnn, hnn2, numUnit, cancelLoop, removeFirstCat, hcat.symm]
      rw [hcancel]
      simp [Value.getRat]
    · simp [CompoundValue.effectiveRat, hb, ht2ne]
  · exact ⟨_, _, attach_nonoffset 5 (ratFromFrac 1 1) meterUnit (by decide) (by decide) rfl,
      attach_nonoffset 3 (ratFromFrac 1000 1) kilogramUnit (by decide) (by decide) rfl,
      by rfl⟩
  · exact ⟨_, _, attach_nonoffset 1 (ratFromFrac 1 1) meterUnit (by decide) (by decide) rfl,
      attach_nonoffset 1 (ratFromFrac 1 1) meterUnit (by decide) (by decide) rfl,
      by rfl⟩

/-- Witness for C3's general part: `(1 m) / (2 m)` is dimensionless. -/
theorem category_cancellation_witness :
    meterUnit.toBase = ToBaseV.rat (ratFromFrac 1 1) ∧ (2 : ℚ) ≠ 0 ∧
    (∃ va vb r, evalUnitExpr (dimless 1) (SimpleUnit meterUnit) = .ok va ∧
      evalUnitExpr (dimless 2) (SimpleUnit meterUnit) = .ok vb ∧
      valDiv va vb = .ok r ∧ r.isEmpty = true ∧
      r.effectiveRat = 1 * ratFromFrac 1 1 / (2 * ratFromFrac 1 1)) :=
  ⟨by decide, by decide,
   category_cancellation.1 1 2 (ratFromFrac 1 1) (ratFromFrac 1 1) meterUnit meterUnit
     rfl (by decide) (by decide) (by decide) (by decide) rfl rfl (by decide) (by decide)
     (by decide)⟩

/-! ## C5 -/

/-- C5: timestamp − timestamp is a duration in seconds (difference of
the unix-second rationals, unit `s`, dimensionless denominator);
timestamp ± a value that is neither a timestamp nor a simple
time-category duration fails with the message suggesting a time unit;
and timestamp ± duration is a timestamp shifted by the duration's value
in seconds. -/
theorem timestamp_arithmetic :
    (∀ (a b : CompoundValue) (ra rb : ℚ),
      a.isTimestamp = true → b.isTimestamp = true →
      a.num.rat = some ra → b.num.rat = some rb →
      valSub a b = .ok (simpleVal ⟨some (ra - rb), SecondsUnit⟩)) ∧
    (SecondsUnit.short = "s" ∧ SecondsUnit.category = .time) ∧
    (∀ a x : CompoundValue, a.isTimestamp = true → x.isTimestamp = false →
      isSimpleTimeUnit x = false →
      valAdd a x = .error ⟨"cannot add to time: use a time unit (s, min, hr, d, etc.)"⟩ ∧
      valSub a x = .error ⟨"cannot subtract from time: use a time unit (s, min, hr, d, etc.)"⟩) ∧
    (∀ (a d : CompoundValue) (ra : ℚ), a.isTimestamp = true → isSimpleTimeUnit d = true →
      a.num.rat = some ra →
      valAdd a d = .ok (simpleVal ⟨some (ra + d.effectiveRat), a.num.unit⟩) ∧
      valSub a d = .ok (simpleVal ⟨some (ra - d.effectiveRat), a.num.unit⟩) ∧
      (simpleVal ⟨some (ra + d.effectiveRat), a.num.unit⟩).isTimestamp = true) := by
  refine ⟨?_, ⟨by decide, by decide⟩, ?_, ?_⟩
  · intro a b ra rb ha hb hra hrb
    unfold valSub
    rw [ha, hb]
    simp [Value.getRat, hra, hrb, durationToSeconds]
  · intro a x ha hx hsx
    constructor
    · unfold valAdd
      rw [ha, hx, hsx]
      simp
    · unfold valSub
      rw [ha, hx, hsx]
      simp
  · intro a d ra ha hd hra
    have h1 : d.num.unit.category = .time ∧ d.den.unit.category = .number := by
      simpa [isSimpleTimeUnit] using hd
    have hdts : d.isTimestamp = false := by
      simp [CompoundValue.isTimestamp, h1.1]
    have ha2 : a.num.unit.category = .timestamp ∧ a.den.unit.category = .number := by
      simpa [CompoundValue.isTimestamp] using ha
    refine ⟨?_, ?_, ?_⟩
    · unfold valAdd
      rw [ha, hdts, hd]
      simp [Value.getRat, hra, durationToSeconds]
    · unfold valSub
      rw [ha, hdts, hd]
      simp [Value.getRat, hra, durationToSeconds]
    · simp [CompoundValue.isTimestamp, simpleVal, ha2.1, oneVal, numUnit]

/-- Witness for C5 at concrete values: two timestamps, a plain number,
and a 60-second duration. -/
theorem timestamp_arithmetic_witness :
    (simpleVal ⟨some 100, tsUnit⟩).isTimestamp = true ∧
    (dimless 5).isTimestamp = false ∧ isSimpleTimeUnit (dimless 5) = false ∧
    isSimpleTimeUnit (simpleVal ⟨some 60, SecondsUnit⟩) = true ∧
    valSub (simpleVal ⟨some 100, tsUnit⟩) (simpleVal ⟨some 40, tsUnit⟩)
      = .ok (simpleVal ⟨some ((100 : ℚ) - 40), SecondsUnit⟩) ∧
    valAdd (simpleVal ⟨some 100, tsUnit⟩) (dimless 5)
      = .error ⟨"cannot add to time: use a time unit (s, min, hr, d, etc.)"⟩ ∧
    valAdd (simpleVal ⟨some 100, tsUnit⟩) (simpleVal ⟨some 60, SecondsUnit⟩)
      = .ok (simpleVal ⟨some ((100 : ℚ) + (simpleVal ⟨some 60, SecondsUnit⟩).effectiveRat),
          tsUnit⟩) :=
  ⟨by decide, by decide, by decide, by decide,
   timestamp_arithmetic.1 _ _ 100 40 (by decide) (by decide) rfl rfl,
   (timestamp_arithmetic.2.2.1 _ _ (by decide) (by decide) (by decide)).1,
   (timestamp_arithmetic.2.2.2 _ _ 100 (by decide) (by decide) rfl).1⟩

/-! ## C7 -/

/-- C7: a line parses as an assignment exactly when the token stream
begins with a WORD token whose first character is alphabetic, immediately
followed by the equals token; in every other head shape the parsed node
is a plain expression.  The first conjunct characterises the parsed node,
the second characterises the head predicate structurally, and the last
three check the examples `x = 1` (assignment), `tax rate = 1` and
`_x = 1` (not assignments). -/
theorem assignment_recognition :
    (∀ (ts : List Token) (n : LineNode), parseTokens ts = .ok (some n) →
      ((∃ name rhs, n = .assign name rhs) ↔ isAssignHead ts = true)) ∧
    (∀ ts : List Token, isAssignHead ts = true ↔
      ∃ t1 t2 rest, ts = t1 :: t2 :: rest ∧ t1.type = .word ∧ t2.type = .equals ∧
        ∃ c cs, t1.literal.data = c :: cs ∧ c.isAlpha = true) ∧
    (∃ rhs, ParseLine "x = 1" = .ok (some (.assign "x" rhs))) ∧
    isAssignHead (Lex "tax rate = 1") = false ∧
    isAssignHead (Lex "_x = 1") = false := by
  refine ⟨?_, ?_, ⟨.num 1, rfl⟩, rfl, rfl⟩
  · intro ts n h
    unfold parseTokens at h
    by_cases hall : ts.all (fun t => t.type = .eof) = true
    · rw [if_pos hall] at h
      exact absurd h (by simp)
    · rw [if_neg hall] at h
      by_cases hA : isAssignHead ts = true
      · rw [if_pos hA] at h
        simp only [hA, iff_true]
        split at h
        · exact absurd h (by simp)
        · split at h
          · obtain rfl : LineNode.assign (peekT ts).literal _ = n := by
              simpa using h
            exact ⟨_, _, rfl⟩
          · exact absurd h (by simp)
      · rw [if_neg hA] at h
        simp only [hA, iff_false]
        split at h
        · exact absurd h (by simp)
        · split at h
          · obtain rfl : LineNode.expr _ = n := by simpa using h
            simp
          · exact absurd h (by simp)
  · intro ts
    cases ts with
    | nil => simp [isAssignHead]
    | cons t1 ts2 =>
      cases ts2 with
      | nil => simp [isAssignHead]
      | cons t2 rest =>
        simp only [isAssignHead, Bool.and_eq_true, decide_eq_true_eq]
        constructor
        · rintro ⟨⟨h1, h2⟩, h3⟩
          cases hd : t1.literal.data with
          | nil => rw [hd] at h3; exact absurd h3 (by simp)
          | cons c cs =>
            rw [hd] at h3
            exact ⟨t1, t2, rest, rfl, h1, h2, c, cs, hd, h3⟩
        · rintro ⟨u1, u2, r, he, h1, h2, c, cs, hd, hc⟩
          obtain ⟨rfl, rfl, rfl⟩ : t1 = u1 ∧ t2 = u2 ∧ rest = r := by
            injection he with e1 e2
            injection e2 with e2 e3
            exact ⟨e1, e2, e3⟩
          rw [hd]
          exact ⟨⟨h1, h2⟩, hc⟩

/-- Witness for C7 on the line `y = 2`. -/
theorem assignment_recognition_witness :
    parseTokens (Lex "y = 2") = .ok (some (.assign "y" (.num 2))) ∧
    ((∃ name rhs, (LineNode.assign "y" (.num 2) : LineNode) = .assign name rhs) ↔
      isAssignHead (Lex "y = 2") = true) :=
  ⟨rfl, assignment_recognition.1 (Lex "y = 2") (.assign "y" (.num 2)) rfl⟩

/-! ## C9 -/

/-- Reduction of the Except bind on an ok result. -/
theorem okBind {β γ : Type} (a : β) (f : β → Except EvalError γ) :
    (Except.ok a : Except EvalError β) >>= f = f a := rfl

/-- A NUMBER token whose literal is all digits takes the plain (base-10)
path of the number parser. -/
theorem parseNumberTok_digits (a : List Char) (ty : TokenType) (p : ℕ) (rest : List Token)
    (h : ∀ c ∈ a, isDigitC c = true) :
    parseNumberTok (⟨ty, ⟨a⟩, p⟩ :: rest)
      = parseNumberTok.parseNumberPlain ⟨ty, ⟨a⟩, p⟩ rest := by
  unfold parseNumberTok
  dsimp only
  split
  · rename_i u pc dsl
    have hp2 : isDigitC pc = true := h pc (by simp)
    have hx : ¬(pc = 'x' ∨ pc = 'X') := by
      rintro (rfl | rfl) <;> simp [isDigitC] at hp2
    have hb : ¬(pc = 'b' ∨ pc = 'B') := by
      rintro (rfl | rfl) <;> simp [isDigitC] at hp2
    have ho : ¬(pc = 'o' ∨ pc = 'O') := by
      rintro (rfl | rfl) <;> simp [isDigitC] at hp2
    rw [if_neg hx, if_neg hb, if_neg ho]
  · rfl

/-- The plain number path on a two-plus-token tail that is neither a
decimal point nor a byte-adjacent fraction: a bare integer. -/
theorem parseNumberPlain_two (t d f : Token) (rest2 : List Token)
    (hd : d.type ≠ .dot) (hs : d.type ≠ .slash) :
    parseNumberTok.parseNumberPlain t (d :: f :: rest2)
      = .ok (.num (((parseNatBase 10 t.literal.data).getD 0 : ℕ) : ℚ), d :: f :: rest2) := by
  unfold parseNumberTok.parseNumberPlain
  dsimp only
  rw [if_neg hd, if_neg (fun hc => hs hc.1)]

/-- The plain number path on a one-token tail that is not a decimal
point: a bare integer. -/
theorem parseNumberPlain_one (t d : Token) (hd : d.type ≠ .dot) :
    parseNumberTok.parseNumberPlain t [d]
      = .ok (.num (((parseNatBase 10 t.literal.data).getD 0 : ℕ) : ℚ), [d]) := by
  unfold parseNumberTok.parseNumberPlain
  dsimp only
  rw [if_neg hd]

set_option maxHeartbeats 1000000 in
/-- Expression-level shape of `- NUMBER ** NUMBER`: for any fuel and any
digit literals, the unary minus ends up outside the exponentiation. -/
theorem parse_neg_pow_shape (fl : ℕ) (a b : List Char) (p1 p2 p3 p4 p5 : ℕ)
    (ha : ∀ c ∈ a, isDigitC c = true) (hb : ∀ c ∈ b, isDigitC c = true) :
    parseBitOr (fl + 13) [⟨.minus, "-", p1⟩, ⟨.number, ⟨a⟩, p2⟩, ⟨.starstar, "**", p3⟩,
        ⟨.number, ⟨b⟩, p4⟩, ⟨.eof, "", p5⟩]
      = .ok (.unary .minus (.binary .starstar
          (.num (((parseNatBase 10 a).getD 0 : ℕ) : ℚ))
          (.num (((parseNatBase 10 b).getD 0 : ℕ) : ℚ))), [⟨.eof, "", p5⟩]) := by
  have hA : parseNumberTok [⟨.number, ⟨a⟩, p2⟩, ⟨.starstar, "**", p3⟩,
      ⟨.number, ⟨b⟩, p4⟩, ⟨.eof, "", p5⟩]
      = .ok (.num (((parseNatBase 10 a).getD 0 : ℕ) : ℚ),
          [⟨.starstar, "**", p3⟩, ⟨.number, ⟨b⟩, p4⟩, ⟨.eof, "", p5⟩]) := by
    rw [parseNumberTok_digits a .number p2 _ ha,
      parseNumberPlain_two _ _ _ _ (by simp) (by simp)]
  have hB : parseNumberTok [⟨.number, ⟨b⟩, p4⟩, ⟨.eof, "", p5⟩]
      = .ok (.num (((parseNatBase 10 b).getD 0 : ℕ) : ℚ), [⟨.eof, "", p5⟩]) := by
    rw [parseNumberTok_digits b .number p4 _ hb,
      parseNumberPlain_one _ _ (by simp)]
  simp only [parseBitOr, parseBitXor, parseBitAnd, parseShift, parseAddSub, parseMulDiv,
    parseUnaryE, parseExponent, parsePostfix, parsePrimary, parseBitOrTail, parseBitXorTail,
    parseBitAndTail, parseShiftTail, parseAddSubTail, parseMulDivTail, peekT, List.headD,
    List.drop, hA, hB, okBind, reduceCtorEq, reduceIte, eq_self_iff_true, true_or, or_true,
    or_false, false_or, or_self, if_true, if_false]

/-- C9: unary minus binds looser than the exponent operator.  The first
two conjuncts check the lexing and parsing of the literal line
`-2 ** 2`; the third shows that every token stream of the shape
`- NUMBER ** NUMBER` (digit literals, any positions) parses as
minus-outside, exponent-inside; the last three evaluate the parsed
shape: `2 ** 2` is exactly `4`, negation gives `-4`, and the rendered
text is `-4`. -/
theorem unary_minus_precedence :
    Lex "-2 ** 2" = [⟨.minus, "-", 0⟩, ⟨.number, "2", 1⟩, ⟨.starstar, "**", 3⟩,
        ⟨.number, "2", 6⟩, ⟨.eof, "", 7⟩] ∧
    ParseLine "-2 ** 2"
      = .ok (some (.expr (.unary .minus (.binary .starstar (.num 2) (.num 2))))) ∧
    (∀ (a b : List Char) (p1 p2 p3 p4 p5 : ℕ),
      (∀ c ∈ a, isDigitC c = true) → (∀ c ∈ b, isDigitC c = true) →
      parseTokens [⟨.minus, "-", p1⟩, ⟨.number, ⟨a⟩, p2⟩, ⟨.starstar, "**", p3⟩,
          ⟨.number, ⟨b⟩, p4⟩, ⟨.eof, "", p5⟩]
        = .ok (some (.expr (.unary .minus (.binary .starstar
            (.num (((parseNatBase 10 a).getD 0 : ℕ) : ℚ))
            (.num (((parseNatBase 10 b).getD 0 : ℕ) : ℚ))))))) ∧
    (∀ powF : ℚ → ℚ → Option ℚ,
      valPow powF (dimless 2) (dimless 2) = .ok (dimless 4)) ∧
    valNeg (dimless 4) = dimless (-4) ∧
    (∀ (fmtTs : ℚ → PreOffsetV → String) (sci : ℚ → String),
      CompoundValue.render fmtTs 32 sci (dimless (-4)) = "-4") := by
  refine ⟨rfl, rfl, ?_, ?_, rfl, ?_⟩
  · intro a b p1 p2 p3 p4 p5 ha hb
    have hshape := parse_neg_pow_shape 99 a b p1 p2 p3 p4 p5 ha hb
    have h1 : ([⟨.minus, "-", p1⟩, ⟨.number, ⟨a⟩, p2⟩, ⟨.starstar, "**", p3⟩,
        ⟨.number, ⟨b⟩, p4⟩, ⟨.eof, "", p5⟩] : List Token).all (fun t => t.type = .eof)
        = false := rfl
    have h2 : isAssignHead [⟨.minus, "-", p1⟩, ⟨.number, ⟨a⟩, p2⟩, ⟨.starstar, "**", p3⟩,
        ⟨.number, ⟨b⟩, p4⟩, ⟨.eof, "", p5⟩] = false := rfl
    have hf : parseFuel [(⟨.minus, "-", p1⟩ : Token), ⟨.number, ⟨a⟩, p2⟩,
        ⟨.starstar, "**", p3⟩, ⟨.number, ⟨b⟩, p4⟩, ⟨.eof, "", p5⟩] = 99 + 13 := rfl
    simp only [parseTokens, h1, h2, Bool.false_eq_true, if_false, hf]
    unfold parseConvExpr
    rw [hshape, okBind]
    simp [parseConversion, peekT]
  · intro powF
    have hempty : (dimless (2:ℚ)).isEmpty = true := by decide
    have heff : (dimless (2:ℚ)).effectiveRat = 2 := dimless_eff 2
    simp only [valPow, hempty, heff, Bool.not_true, Bool.false_eq_true, if_false]
    norm_num
  · intro fmtTs sci
    have hdr : (dimless (-4 : ℚ)).displayRat = -4 := by
      simp [CompoundValue.displayRat, dimless_eff, dimless, numUnit, Unit.hasOffset]
      rw [if_neg (by decide)]
      exact dimless_eff (-4)
    simp only [CompoundValue.render]
    rw [if_neg (by decide), if_neg (by decide), if_neg (by decide)]
    simp only [hdr]
    have hdb : displayBase (dimless (-4 : ℚ)) = none := by decide
    rw [hdb]
    have hcu : (dimless (-4 : ℚ)).compoundUnit.render = "" := by decide
    have hoff : (dimless (-4 : ℚ)).compoundUnit.hasOffset = false := by decide
    simp only [hcu, hoff]
    have h1 : formatRat 32 sci (-4) = "-4" := by
      simp only [formatRat]
      rw [if_pos (show ((-4:ℚ)).den = 1 by decide)]
      rw [if_pos (by decide)]
      decide
    simp [h1, numUnit, dimless, CompoundUnit.num, CompoundUnit.den]
    intro h
    exact absurd h (by decide)

/-- Witness for C9 at the digit literals 42 and 7. -/
theorem unary_minus_precedence_witness :
    (∀ c ∈ ['4', '2'], isDigitC c = true) ∧ (∀ c ∈ ['7'], isDigitC c = true) ∧
    parseTokens [⟨.minus, "-", 0⟩, ⟨.number, ⟨['4', '2']⟩, 1⟩, ⟨.starstar, "**", 4⟩,
        ⟨.number, ⟨['7']⟩, 7⟩, ⟨.eof, "", 8⟩]
      = .ok (some (.expr (.unary .minus (.binary .starstar
          (.num (((parseNatBase 10 ['4', '2']).getD 0 : ℕ) : ℚ))
          (.num (((parseNatBase 10 ['7']).getD 0 : ℕ) : ℚ)))))) :=
  ⟨by decide, by decide,
   unary_minus_precedence.2.2.1 ['4', '2'] ['7'] 0 1 4 7 8 (by decide) (by decide)⟩

/-! ## C1 -/

/-- C1: the change decision of a re-evaluated line compares the
effective rational AND the unit shape — category and short name on both
the numerator and denominator sides — and a mismatch in any component
counts as a change.  The first conjunct decomposes the comparison into
exactly those five components; the second shows that on the dirty
successful-evaluation path of the engine, both the assigned name and the
line-reference key are marked changed exactly when the comparison
fails. -/
theorem change_detection_components :
    (∀ oldV newV : CompoundValue, valuesEqualForChange oldV newV = true ↔
      (oldV.effectiveRat = newV.effectiveRat ∧
       oldV.num.unit.category = newV.num.unit.category ∧
       oldV.num.unit.short = newV.num.unit.short ∧
       oldV.den.unit.category = newV.den.unit.category ∧
       oldV.den.unit.short = newV.den.unit.short)) ∧
    (∀ (Node : Type) (L : LangOps Node) (nowTicked : Bool) (i : ℕ) (line : String)
       (cached : CachedLine Node) (env : EnvF) (changed : ChangedF) (nd : Node)
       (val : CompoundValue),
      cached.text ≠ line → isEmptyLine line = false →
      L.parseLine line = .ok (some nd) → L.eval nd env = .ok val →
      cached.err = none → (L.collectDeps nd).assigns ≠ "" →
      changed ((L.collectDeps nd).assigns) = false → changed (lineRef i) = false →
      ((processLine L nowTicked i line cached env changed).2.2.1
          ((L.collectDeps nd).assigns) = true
        ↔ ¬ valuesEqualForChange cached.result val = true) ∧
      ((processLine L nowTicked i line cached env changed).2.2.1 (lineRef i) = true
        ↔ ¬ valuesEqualForChange cached.result val = true)) := by
  constructor
  · intro oldV newV
    simp [valuesEqualForChange, ratEqual, unitEqual, Bool.and_eq_true,
      decide_eq_true_eq, and_assoc]
  · intro Node L nowTicked i line cached env changed nd val h1 h2 h3 h4 h5 h6 h7 h8
    have htc : decide (cached.text ≠ line) = true := by simp [h1]
    have ha : decide ((L.collectDeps nd).assigns ≠ "") = true := by simp [h6]
    simp only [processLine, htc, h2, h3, h4, h5, ha, Bool.true_or, Bool.not_true,
      Bool.false_and, Bool.false_eq_true, if_false, Option.isSome_none, Bool.or_false,
      Bool.true_and]
    by_cases hvefc : valuesEqualForChange cached.result val = true
    · simp only [hvefc, Bool.not_true, Bool.false_eq_true, if_false]
      simp [h7, h8, hvefc]
    · have hb : valuesEqualForChange cached.result val = false :=
        Bool.eq_false_iff.mpr hvefc
      simp only [hb, Bool.not_false, if_true]
      simp [chSet, hvefc]

/-- Witness for C1 on a one-line cache with a changed value. -/
theorem change_detection_components_witness :
    (resetLine : CachedLine Bool).text ≠ "x" ∧
    isEmptyLine "x" = false ∧
    (((processLine (⟨fun _ => .ok (some true), fun _ => ⟨[], false, "a"⟩,
          fun _ _ => .ok ⟨⟨some 1, numUnit⟩, ⟨some 0, numUnit⟩⟩, fun _ => ""⟩ :
            LangOps Bool)
          true 0 "x" resetLine (fun _ => none) (fun _ => false)).2.2.1 "a" = true
      ↔ ¬ valuesEqualForChange (resetLine : CachedLine Bool).result
          ⟨⟨some 1, numUnit⟩, ⟨some 0, numUnit⟩⟩ = true) ∧
     ((processLine (⟨fun _ => .ok (some true), fun _ => ⟨[], false, "a"⟩,
          fun _ _ => .ok ⟨⟨some 1, numUnit⟩, ⟨some 0, numUnit⟩⟩, fun _ => ""⟩ :
            LangOps Bool)
          true 0 "x" resetLine (fun _ => none) (fun _ => false)).2.2.1 (lineRef 0) = true
      ↔ ¬ valuesEqualForChange (resetLine : CachedLine Bool).result
          ⟨⟨some 1, numUnit⟩, ⟨some 0, numUnit⟩⟩ = true)) :=
  ⟨by decide, rfl,
   change_detection_components.2 Bool
     ⟨fun _ => .ok (some true), fun _ => ⟨[], false, "a"⟩,
      fun _ _ => .ok ⟨⟨some 1, numUnit⟩, ⟨some 0, numUnit⟩⟩, fun _ => ""⟩
     true 0 "x" resetLine (fun _ => none) (fun _ => false) true
     ⟨⟨some 1, numUnit⟩, ⟨some 0, numUnit⟩⟩
     (by decide) rfl rfl rfl rfl (by decide) rfl rfl⟩

/-! ## C2 -/

/-- Every path of the engine loop body stores the processed text in the
cache entry it returns. -/
theorem processLine_text {Node : Type} (L : LangOps Node) (t1 : Bool) (i : ℕ)
    (line : String) (c : CachedLine Node) (env : EnvF) (ch : ChangedF) :
    (processLine L t1 i line c env ch).1.text = line := by
  unfold processLine
  dsimp only
  split
  · rename_i hcl
    by_contra hne
    simp [hne] at hcl
  · split
    · rfl
    · split
      · rfl
      · rfl
      · split
        · rfl
        · rfl

/-- With unchanged text, no tick and an empty changed set, the loop body
takes the clean path: cache and changed set are untouched and the cached
emission is replayed. -/
theorem processLine_clean {Node : Type} (L : LangOps Node) (i : ℕ) (line : String)
    (c2 : CachedLine Node) (env : EnvF) (htext : c2.text = line) :
    processLine L false i line c2 env (fun _ => false)
      = (c2,
         (if !c2.isEmpty && c2.err.isNone then
            envSet (if c2.deps.assigns ≠ "" then envSet env c2.deps.assigns c2.result
              else env) (lineRef i) c2.result
          else env),
         (fun _ => false), emitCached L.render c2) := by
  have h1 : decide (c2.text ≠ line) = false := by simp [htext]
  have h2 : c2.deps.vars.any (fun _ => false) = false := by
    induction c2.deps.vars with
    | nil => rfl
    | cons x xs ih => simp [List.any, ih]
  simp only [processLine, h1, h2, Bool.false_or, Bool.and_false, Bool.not_false,
    Bool.and_true, Bool.true_and, if_true]

/-- Replaying the cache entry written by the loop body emits the very
result the body returned (parse errors carry nonempty messages). -/
theorem processLine_emit {Node : Type} (L : LangOps Node) (t1 : Bool) (i : ℕ)
    (line : String) (c : CachedLine Node) (env : EnvF) (ch : ChangedF)
    (hmsg : ∀ e, L.parseLine line = .error e → e.msg ≠ "") :
    emitCached L.render (processLine L t1 i line c env ch).1
      = (processLine L t1 i line c env ch).2.2.2 := by
  unfold processLine
  dsimp only
  split
  · rfl
  · split
    · simp [emitCached]
    · split
      · rename_i err heq
        have hm : err.msg ≠ "" := hmsg err heq
        have hemptyf : isEmptyLine line = false := by
          simpa using ‹¬ isEmptyLine line = true›
        simp [emitCached, hemptyf, hm]
      · simp [emitCached]
      · split
        · rename_i err heqe
          have hemptyf : isEmptyLine line = false := by
            simpa using ‹¬ isEmptyLine line = true›
          by_cases hm : err.msg = ""
          · simp [emitCached, hemptyf, hm]
          · simp [emitCached, hemptyf, hm]
        · rename_i val heqe
          have hemptyf : isEmptyLine line = false := by
            simpa using ‹¬ isEmptyLine line = true›
          simp [emitCached, hemptyf]

/-- Unfolding of the engine loop on a cons cell. -/
theorem evalLines_cons {Node : Type} (L : LangOps Node) (t : Bool) (line : String)
    (c : CachedLine Node) (ps : List (String × CachedLine Node)) (i : ℕ)
    (env : EnvF) (ch : ChangedF) :
    evalLines L t ((line, c) :: ps) i env ch
      = ((processLine L t i line c env ch).1
           :: (evalLines L t ps (i + 1) (processLine L t i line c env ch).2.1
                (processLine L t i line c env ch).2.2.1).1,
         (evalLines L t ps (i + 1) (processLine L t i line c env ch).2.1
           (processLine L t i line c env ch).2.2.1).2.1,
         (evalLines L t ps (i + 1) (processLine L t i line c env ch).2.1
           (processLine L t i line c env ch).2.2.1).2.2.1,
         (processLine L t i line c env ch).2.2.2
           :: (evalLines L t ps (i + 1) (processLine L t i line c env ch).2.1
                (processLine L t i line c env ch).2.2.1).2.2.2) := rfl

/-- The engine loop returns one cache entry per input line. -/
theorem evalLines_length {Node : Type} (L : LangOps Node) (t : Bool) :
    ∀ (ps : List (String × CachedLine Node)) (i : ℕ) (env : EnvF) (ch : ChangedF),
      (evalLines L t ps i env ch).1.length = ps.length := by
  intro ps
  induction ps with
  | nil => intro i env ch; rfl
  | cons p ps ih =>
    intro i env ch
    obtain ⟨line, c⟩ := p
    rw [evalLines_cons]
    simp [ih]

/-- Re-running the loop on the cache written by a first pass, with the
tick flag off and an empty changed set, keeps every line clean: the
cache comes back unchanged, the changed set stays empty, and the emitted
results are identical to the first pass. -/
theorem evalLines_second {Node : Type} (L : LangOps Node)
    (hmsg : ∀ s e, L.parseLine s = .error e → e.msg ≠ "") :
    ∀ (ps : List (String × CachedLine Node)) (i : ℕ) (env : EnvF) (ch : ChangedF)
      (t1 : Bool) (env2 : EnvF),
      ∃ env3,
        evalLines L false ((ps.map Prod.fst).zip (evalLines L t1 ps i env ch).1) i env2
            (fun _ => false)
          = ((evalLines L t1 ps i env ch).1, env3, (fun _ => false),
             (evalLines L t1 ps i env ch).2.2.2) := by
  intro ps
  induction ps with
  | nil => intro i env ch t1 env2; exact ⟨env2, rfl⟩
  | cons p ps ih =>
    intro i env ch t1 env2
    obtain ⟨line, c⟩ := p
    have htext := processLine_text L t1 i line c env ch
    have hclean := processLine_clean L i line
      (processLine L t1 i line c env ch).1 env2 htext
    have hemit := processLine_emit L t1 i line c env ch (hmsg line)
    obtain ⟨env3, ih1⟩ := ih (i + 1) (processLine L t1 i line c env ch).2.1
      (processLine L t1 i line c env ch).2.2.1 t1
      (if !(processLine L t1 i line c env ch).1.isEmpty
          && (processLine L t1 i line c env ch).1.err.isNone then
        envSet (if (processLine L t1 i line c env ch).1.deps.assigns ≠ "" then
            envSet env2 (processLine L t1 i line c env ch).1.deps.assigns
              (processLine L t1 i line c env ch).1.result
          else env2) (lineRef i) (processLine L t1 i line c env ch).1.result
      else env2)
    refine ⟨env3, ?_⟩
    simp only [evalLines_cons, List.map_cons, List.zip_cons_cons]
    rw [hclean]
    dsimp only
    rw [hemit, ih1]

/-- Unfolding of the top-level incremental entry point. -/
theorem EvalAllIncremental_eq {Node : Type} (L : LangOps Node) (st : EvalState Node)
    (lines : List String) (t : Bool) :
    EvalAllIncremental L st lines t
      = (⟨(evalLines L t (lines.zip (if lines.length = st.lines.length then st.lines
            else lines.map (fun _ => resetLine))) 0 (fun _ => none) (fun _ => false)).1⟩,
         (evalLines L t (lines.zip (if lines.length = st.lines.length then st.lines
            else lines.map (fun _ => resetLine))) 0 (fun _ => none)
            (fun _ => false)).2.2.2) := rfl

/-- C2: evaluating a list of lines on a fresh cache and then evaluating
the identical list again with the tick flag off produces the same
ordered result sequence in both passes (assuming the host parser reports
errors with nonempty messages, which is what distinguishes a cached
parse error from a cached no-result line on replay). -/
theorem incremental_second_pass_equiv {Node : Type} (L : LangOps Node)
    (lines : List String) (t1 : Bool)
    (hmsg : ∀ s e, L.parseLine s = .error e → e.msg ≠ "") :
    (EvalAllIncremental L (EvalAllIncremental L ⟨[]⟩ lines t1).1 lines false).2
      = (EvalAllIncremental L ⟨[]⟩ lines t1).2 := by
  simp only [EvalAllIncremental_eq]
  by_cases h0 : lines.length = ([] : List (CachedLine Node)).length
  · have hnil : lines = [] := List.length_eq_zero.mp (by simpa using h0)
    subst hnil
    rfl
  · rw [if_neg h0]
    have hlen2 : lines.length
        = (evalLines L t1 (lines.zip (lines.map (fun _ => (resetLine : CachedLine Node))))
            0 (fun _ => none) (fun _ => false)).1.length := by
      rw [evalLines_length]
      simp
    rw [if_pos hlen2]
    have hmap : ((lines.zip (lines.map (fun _ => (resetLine : CachedLine Node)))).map
        Prod.fst) = lines :=
      List.map_fst_zip _ _ (by simp)
    obtain ⟨env3, h2⟩ := evalLines_second L hmsg
      (lines.zip (lines.map (fun _ => (resetLine : CachedLine Node)))) 0 (fun _ => none)
      (fun _ => false) t1 (fun _ => none)
    rw [hmap] at h2
    rw [h2]

/-- Witness for C2 with a trivial language on a one-line input. -/
theorem incremental_second_pass_equiv_witness :
    (∀ s e, (⟨fun _ => .ok none, fun _ => emptyDeps, fun _ _ => .ok zeroCV,
        fun _ => ""⟩ : LangOps Unit).parseLine s = .error e → e.msg ≠ "") ∧
    (EvalAllIncremental (⟨fun _ => .ok none, fun _ => emptyDeps, fun _ _ => .ok zeroCV,
        fun _ => ""⟩ : LangOps Unit)
      (EvalAllIncremental (⟨fun _ => .ok none, fun _ => emptyDeps, fun _ _ => .ok zeroCV,
        fun _ => ""⟩ : LangOps Unit) ⟨[]⟩ ["x"] true).1 ["x"] false).2
      = (EvalAllIncremental (⟨fun _ => .ok none, fun _ => emptyDeps,
          fun _ _ => .ok zeroCV, fun _ => ""⟩ : LangOps Unit) ⟨[]⟩ ["x"] true).2 :=
  ⟨fun s e h => absurd h (by simp),
   incremental_second_pass_equiv
     (⟨fun _ => .ok none, fun _ => emptyDeps, fun _ _ => .ok zeroCV,
       fun _ => ""⟩ : LangOps Unit) ["x"] true
     (fun s e h => absurd h (by simp))⟩

end Ratcalc
